import Mathlib

/-!
# A shallow embedding of the wasminspect VM core

This file embeds, in Lean 4, the instruction-level Executor of the
wasminspect WebAssembly virtual machine (`crates/vm/src/executor.rs`)
together with the parts of the data model it needs (values, stack,
store, memory / table / element / data instances), and proves theorems
about the behaviour of `execute_step`, the invocation protocol, the
bulk region operations, `call_indirect`, memory addressing, `memory.grow`,
the integer divide / remainder operators, the reinterpret operators and
`br_if`.

Definitions are translated from the Rust source.  The crate files
`stack.rs`, `memory.rs`, `table.rs`, `value.rs`, `elem.rs`, `data.rs`
and `store.rs` are not available; operations of those modules are
modelled from the specification and each such definition carries a
doc comment saying so.  Rust `i32` / `i64` values are carried as `Int`
in the corresponding two's-complement range; float values are carried
as their bit pattern (a `Nat`), exactly as the VM itself stores them.
A Rust panic (an `unwrap` of a missing instance, an out-of-bounds
vector index) is modelled by the distinguished trap `Trap.invalidState`;
no claim below depends on a panicking path.
-/

namespace Wasminspect

/-- Wasm value types (`wasmparser::Type`, restricted to the types the VM uses). -/
inductive ValType
  | i32
  | i64
  | f32
  | f64
  | funcref
  | externref
deriving DecidableEq, Repr

/-- A function signature (`wasmparser::FuncType`): parameter and result types. -/
structure FuncType where
  params : List ValType
  returns : List ValType
deriving DecidableEq, Repr

/-- Reference types (`value::RefType`). -/
inductive RefType
  | funcRef
  | externRef
deriving DecidableEq, Repr

/-- Reference values (`value::RefVal`).  A function reference carries a
`FuncAddr`, i.e. a (module index, local function index) pair. -/
inductive RefVal
  | nullRef (ty : RefType)
  | funcRef (addr : Nat × Nat)
  | externRef (id : Nat)
deriving DecidableEq, Repr

/-- Runtime values (`value::Value`).  `I32` / `I64` payloads are the signed
two's-complement value; `F32` / `F64` payloads are the raw bit pattern,
exactly as in the Rust enum (floats are carried as bits so that NaN
payloads round-trip unchanged). -/
inductive Value
  | I32 (v : Int)
  | I64 (v : Int)
  | F32 (bits : Nat)
  | F64 (bits : Nat)
  | Ref (r : RefVal)
deriving DecidableEq, Repr

/-- `Value::value_type` — the value type tag of a runtime value. -/
def Value.value_type : Value → ValType
  | .I32 _ => .i32
  | .I64 _ => .i64
  | .F32 _ => .f32
  | .F64 _ => .f64
  | .Ref (.nullRef .funcRef) => .funcref
  | .Ref (.nullRef .externRef) => .externref
  | .Ref (.funcRef _) => .funcref
  | .Ref (.externRef _) => .externref

/-- The zero / null initial value of a value type (used for the
zero-initialised declared locals of a call frame). -/
def ValType.zero_value : ValType → Value
  | .i32 => .I32 0
  | .i64 => .I64 0
  | .f32 => .F32 0
  | .f64 => .F64 0
  | .funcref => .Ref (.nullRef .funcRef)
  | .externref => .Ref (.nullRef .externRef)

/-- Reinterpret a Rust `i32` (an `Int` in `[-2^31, 2^31)`) as a `u32`
(the underlying two's-complement bit pattern). -/
def toUnsigned32 (v : Int) : Nat := (v % (2 ^ 32 : Int)).toNat

/-- Reinterpret a `u32` bit pattern as a Rust `i32`. -/
def toSigned32 (n : Nat) : Int :=
  if n < 2 ^ 31 then (n : Int) else (n : Int) - 2 ^ 32

/-- Reinterpret a Rust `i64` as a `u64` bit pattern. -/
def toUnsigned64 (v : Int) : Nat := (v % (2 ^ 64 : Int)).toNat

/-- Reinterpret a `u64` bit pattern as a Rust `i64`. -/
def toSigned64 (n : Nat) : Int :=
  if n < 2 ^ 63 then (n : Int) else (n : Int) - 2 ^ 64

/-- The Rust cast `x as usize` applied to an `i32` on a 64-bit target:
sign-extend to 64 bits and reinterpret as unsigned. -/
def usize_of_i32 (v : Int) : Nat := (v % (2 ^ 64 : Int)).toNat

/-- The Rust cast `n as i32` applied to a `usize`. -/
def i32_of_usize (n : Nat) : Int := toSigned32 (n % 2 ^ 32)

/-- Runtime traps (`executor::Trap`).  Errors of the missing crate modules
(`stack::Error`, `memory::Error`, `table::Error`, `elem::Error`,
`data::Error`, `value::Error`) are modelled as dedicated constructors;
the two `value::Error` cases the divide / remainder operators produce are
split out as `valueDivideByZero` and `valueIntegerOverflow` (the spec:
trap `integer divide by zero` on a zero divisor, `integer overflow`
on `INT_MIN / -1`).  `invalidState` models a Rust panic (an `unwrap` on a
missing instance or an out-of-bounds vector index inside the executor);
it is unreachable from the well-formed states the theorems below use. -/
inductive Trap
  | unreachable
  | memoryError
  | stackError
  | tableError
  | valueDivideByZero
  | valueIntegerOverflow
  | elementError
  | dataError
  | indirectCallTypeMismatch (callee_name : String) (expected : FuncType) (actual : FuncType)
  | directCallTypeMismatch (callee_name : String) (expected : List ValType) (actual : List ValType)
  | unexpectedStackValueType (expected : ValType) (actual : ValType)
  | unexpectedNonRefValueType (actual : ValType)
  | undefinedFunc (idx : Nat)
  | elementTypeMismatch (expected : RefType) (actual : RefVal)
  | noMoreInstruction
  | hostFunctionError
  | memoryAddrOverflow (base : Nat) (offset : Nat)
  | invalidState
deriving DecidableEq, Repr

/-- `executor::Signal`.  `Signal::End` is rendered `end_` (keyword). -/
inductive Signal
  | next
  | breakpoint
  | end_
deriving DecidableEq, Repr

/-- Block types (`wasmparser::TypeOrFuncType`), carried by the structured
control instructions. -/
inductive BlockType
  | empty
  | valType (t : ValType)
  | funcType (type_id : Nat)
deriving DecidableEq, Repr

/-- The decoded instruction kinds (`inst::InstructionKind`) that the claims
under verification exercise.  The structured control constructors
(`block`, `loop_`, `if_`, `else_`, `end_`) are included because the
forward scan of `Executor::branch` inspects them; arms of
`execute_inst` that no claim touches are dispatched to `Trap.invalidState`
by the interpreter below and are never used by any theorem. -/
inductive Instruction
  | unreachable
  | nop
  | block (ty : BlockType)
  | loop_ (ty : BlockType)
  | if_ (ty : BlockType)
  | else_
  | end_
  | br (relative_depth : Nat)
  | br_if (relative_depth : Nat)
  | return_
  | call (function_index : Nat)
  | call_indirect (index : Nat) (table_index : Nat)
  | i32_const (value : Int)
  | i64_const (value : Int)
  | memory_grow
  | memory_copy (src : Nat) (dst : Nat)
  | memory_fill (mem : Nat)
  | memory_init (segment : Nat) (mem : Nat)
  | table_fill (table : Nat)
  | table_copy (dst_table : Nat) (src_table : Nat)
  | table_init (segment : Nat) (table : Nat)
  | i32_store (offset : Nat)
  | i32_load (offset : Nat)
  | i32_div_s
  | i32_div_u
  | i32_rem_s
  | i32_rem_u
  | i32_reinterpret_f32
  | i64_reinterpret_f64
  | f32_reinterpret_i32
  | f64_reinterpret_i64
deriving DecidableEq, Repr

/-- `stack::ProgramCounter`: (module index, function exec address,
instruction index). -/
structure ProgramCounter where
  module_index : Nat
  exec_addr : Nat
  inst_index : Nat
deriving DecidableEq, Repr

/-- `ProgramCounter::inc_inst_index`. -/
def ProgramCounter.inc_inst_index (pc : ProgramCounter) : ProgramCounter :=
  { pc with inst_index := pc.inst_index + 1 }

/-- `ProgramCounter::loop_jump`: rewrite the instruction index to the saved
start of a loop label. -/
def ProgramCounter.loop_jump (pc : ProgramCounter) (start : Nat) : ProgramCounter :=
  { pc with inst_index := start }

/-- `stack::CallFrame`: module index, function exec address, local variable
vector (declared params followed by zero-initialised declared locals),
saved return program counter. -/
structure CallFrame where
  module_index : Nat
  exec_addr : Nat
  locals : List Value
  ret_pc : Option ProgramCounter
deriving DecidableEq, Repr

/-- `stack::Label`.  A `Loop` label stores the loop's start instruction
index and its parameter arity; the other labels store their result arity. -/
inductive Label
  | block (arity : Nat)
  | loop_ (label : Nat) (arity : Nat)
  | if_ (arity : Nat)
  | ret (arity : Nat)
deriving DecidableEq, Repr

/-- `Label::arity`: the number of operand values carried across the branch. -/
def Label.arity : Label → Nat
  | .block a => a
  | .loop_ _ a => a
  | .if_ a => a
  | .ret a => a

/-- `stack::StackValue`: the single stack interleaves operand values,
labels and activations (call frames). -/
inductive StackValue
  | value (v : Value)
  | label (l : Label)
  | activation (f : CallFrame)
deriving DecidableEq, Repr

def StackValue.isValue : StackValue → Bool
  | .value _ => true
  | _ => false

def StackValue.isActivation : StackValue → Bool
  | .activation _ => true
  | _ => false

theorem toUnsigned32_toSigned32 (n : Nat) (h : n < 2 ^ 32) :
    toUnsigned32 (toSigned32 n) = n := by
  simp only [toUnsigned32, toSigned32]
  split <;> omega

theorem toSigned32_toUnsigned32 (v : Int) (h1 : -(2 ^ 31) ≤ v) (h2 : v < 2 ^ 31) :
    toSigned32 (toUnsigned32 v) = v := by
  simp only [toUnsigned32, toSigned32]
  split <;> omega

theorem toUnsigned64_toSigned64 (n : Nat) (h : n < 2 ^ 64) :
    toUnsigned64 (toSigned64 n) = n := by
  simp only [toUnsigned64, toSigned64]
  split <;> omega

theorem toSigned64_toUnsigned64 (v : Int) (h1 : -(2 ^ 63) ≤ v) (h2 : v < 2 ^ 63) :
    toSigned64 (toUnsigned64 v) = v := by
  simp only [toUnsigned64, toSigned64]
  split <;> omega

/-! ## Stack operations

`stack.rs` is not among the available sources; the operations below are
modelled from the specification of the Stack component: a single sequence
of `StackValue` entries whose top prefix up to the nearest label is the
current operand region.  The stack is represented top-first.  Each
operation returns the stack it leaves behind together with its result, so
that the state at the moment of a trap is retained (Rust mutates the
stack in place). -/

/-- Modelled from the spec: `Stack::pop_value` pops the top operand value;
it fails (with a `stack::Error`) when the top of the stack is not an
operand value, leaving the stack unchanged. -/
def pop_value (s : List StackValue) : List StackValue × Except Trap Value :=
  match s with
  | .value v :: rest => (rest, .ok v)
  | _ => (s, .error .stackError)

/-- Modelled from the spec: `Stack::pop_values n` pops `n` operand values,
returned top-first; popping stops at the first failure, which is
reported, and the values popped before the failure stay popped. -/
def pop_values (n : Nat) (s : List StackValue) :
    List StackValue × Except Trap (List Value) :=
  match n with
  | 0 => (s, .ok [])
  | n + 1 =>
    match pop_value s with
    | (s1, .error e) => (s1, .error e)
    | (s1, .ok v) =>
      match pop_values n s1 with
      | (s2, .error e) => (s2, .error e)
      | (s2, .ok vs) => (s2, .ok (v :: vs))

/-- Modelled from the spec: `Stack::push_value`. -/
def push_value (v : Value) (s : List StackValue) : List StackValue :=
  .value v :: s

/-- Modelled from the spec: `Stack::push_values` pushes the values in
iteration order, so the last element of `vs` ends on top. -/
def push_values (vs : List Value) (s : List StackValue) : List StackValue :=
  vs.reverse.map .value ++ s

/-- Modelled from the spec: `Stack::pop_while` pops the longest prefix of
entries satisfying `p`, returning it (top-first) with the rest of the
stack. -/
def pop_while (p : StackValue → Bool) (s : List StackValue) :
    List StackValue × List StackValue :=
  (s.takeWhile p, s.dropWhile p)

/-- Modelled from the spec: `Stack::pop_label` pops the label on top of the
stack; it fails when the top is not a label, leaving the stack unchanged. -/
def pop_label (s : List StackValue) : List StackValue × Except Trap Label :=
  match s with
  | .label l :: rest => (rest, .ok l)
  | _ => (s, .error .stackError)

/-- Modelled from the spec: `Stack::current_frame` is the innermost
activation on the stack. -/
def current_frame (s : List StackValue) : Except Trap CallFrame :=
  match s with
  | [] => .error .stackError
  | .activation f :: _ => .ok f
  | _ :: rest => current_frame rest

/-- Modelled from the spec: `Stack::pop_frame` pops the activation on top of
the stack; it fails when the top is not an activation. -/
def pop_frame (s : List StackValue) : List StackValue × Except Trap CallFrame :=
  match s with
  | .activation f :: rest => (rest, .ok f)
  | _ => (s, .error .stackError)

/-- Modelled from the spec: `Stack::set_frame` pushes a new activation. -/
def set_frame (f : CallFrame) (s : List StackValue) : List StackValue :=
  .activation f :: s

/-- Modelled from the spec: `Stack::push_label`. -/
def push_label (l : Label) (s : List StackValue) : List StackValue :=
  .label l :: s

/-- Modelled from the spec: the labels of the current frame, innermost
first (used by `Stack::frame_label`). -/
def frame_labels (s : List StackValue) : List Label :=
  match s with
  | [] => []
  | .activation _ :: _ => []
  | .label l :: rest => l :: frame_labels rest
  | .value _ :: rest => frame_labels rest

/-- Modelled from the spec: `Stack::frame_label depth` is the `depth`-th
enclosing label of the current frame (0 = innermost). -/
def frame_label (depth : Nat) (s : List StackValue) : Except Trap Label :=
  match (frame_labels s)[depth]? with
  | some l => .ok l
  | none => .error .stackError

/-- Modelled from the spec: `Stack::is_func_top_level` — the current frame
has only its base `Return` label left, i.e. the next `end` closes the
function body itself. -/
def is_func_top_level (s : List StackValue) : Except Trap Bool :=
  match current_frame s with
  | .error e => .error e
  | .ok _ => .ok ((frame_labels s).length = 1)

/-- Modelled from the spec: `Stack::is_over_top_level` — every activation
has been popped (`Signal::End` means the initial top frame's Return label
has been popped). -/
def is_over_top_level (s : List StackValue) : Bool :=
  !(s.any StackValue.isActivation)

/-! ## Instances (memory, table, element segment, data segment)

`memory.rs`, `table.rs`, `elem.rs` and `data.rs` are not among the
available sources; the instance operations are modelled from the
specification: a memory is a growable byte buffer measured in pages of
65536 bytes with `current_pages ≤ max_pages`; region validation is
`offset + len ≤ bytes.len()`, else an out-of-bounds trap; a table is a
vector of reference values; a dropped passive segment validates as
empty. -/

/-- `memory::MemoryInstance`, modelled from the spec: a byte buffer plus
the declared page maximum. -/
structure MemoryInstance where
  bytes : List Nat
  max_pages : Option Nat
deriving DecidableEq, Repr

/-- Modelled from the spec: current page count of a memory. -/
def MemoryInstance.page_count (m : MemoryInstance) : Nat :=
  m.bytes.length / 65536

/-- Modelled from the spec: region validation — `offset + len ≤ bytes.len()`,
else trap out-of-bounds. -/
def MemoryInstance.validate_region (m : MemoryInstance) (offset len : Nat) :
    Except Trap Unit :=
  if offset + len ≤ m.bytes.length then .ok () else .error .memoryError

/-- Overlay `buf` over `bytes` starting at `addr` (`bytes[addr..addr+buf.len()]
.copy_from_slice(buf)`). -/
def write_bytes (bytes : List Nat) (addr : Nat) (buf : List Nat) : List Nat :=
  bytes.take addr ++ buf ++ bytes.drop (addr + buf.length)

/-- Modelled from the spec: `MemoryInstance::store` writes `buf` at `addr`
after checking that the written range lies inside the buffer. -/
def MemoryInstance.store (m : MemoryInstance) (addr : Nat) (buf : List Nat) :
    Except Trap MemoryInstance :=
  if addr + buf.length ≤ m.bytes.length then
    .ok { m with bytes := write_bytes m.bytes addr buf }
  else .error .memoryError

/-- Modelled from the spec: `MemoryInstance::load_as::<u8>` — a bounds-checked
single byte read. -/
def MemoryInstance.load_u8 (m : MemoryInstance) (addr : Nat) : Except Trap Nat :=
  match m.bytes[addr]? with
  | some b => .ok b
  | none => .error .memoryError

/-- Read four bytes little-endian starting at `addr` (addresses are assumed
in bounds by the caller's check). -/
def read_le4 (bytes : List Nat) (addr : Nat) : Nat :=
  bytes.getD addr 0 + 256 * (bytes.getD (addr + 1) 0 +
    256 * (bytes.getD (addr + 2) 0 + 256 * bytes.getD (addr + 3) 0))

/-- Modelled from the spec: `MemoryInstance::load_as::<i32>` — a bounds-checked
little-endian 4-byte read, reinterpreted as a signed i32. -/
def MemoryInstance.load_i32 (m : MemoryInstance) (addr : Nat) : Except Trap Int :=
  if addr + 4 ≤ m.bytes.length then .ok (toSigned32 (read_le4 m.bytes addr))
  else .error .memoryError

/-- `i32::to_le_bytes` on the two's-complement bit pattern. -/
def i32_to_le_bytes (v : Int) : List Nat :=
  let n := toUnsigned32 v
  [n % 256, n / 256 % 256, n / 256 ^ 2 % 256, n / 256 ^ 3 % 256]

/-- Modelled from the spec: `MemoryInstance::grow` — attempt to grow by `n`
pages; fails (with `Err`, not a trap) when the result would exceed the
declared maximum, or the 65536-page limit of a 32-bit memory when no
maximum is declared. -/
def MemoryInstance.grow (m : MemoryInstance) (n : Nat) : Except Unit MemoryInstance :=
  if m.page_count + n ≤ (m.max_pages.getD 65536) then
    .ok { m with bytes := m.bytes ++ List.replicate (n * 65536) 0 }
  else .error ()

/-- `table::TableInstance`, modelled from the spec: a vector of reference
values plus the declared maximum size. -/
structure TableInstance where
  buffer : List RefVal
  max : Option Nat
deriving DecidableEq, Repr

/-- `TableInstance::buffer_len`. -/
def TableInstance.buffer_len (t : TableInstance) : Nat := t.buffer.length

/-- Modelled from the spec: `TableInstance::get_at` — a bounds-checked read;
an out-of-range index is the `table::Error` rendered `undefined element`. -/
def TableInstance.get_at (t : TableInstance) (i : Nat) : Except Trap RefVal :=
  match t.buffer[i]? with
  | some r => .ok r
  | none => .error .tableError

/-- Modelled from the spec: `TableInstance::set_at` — a bounds-checked write. -/
def TableInstance.set_at (t : TableInstance) (i : Nat) (r : RefVal) :
    Except Trap TableInstance :=
  if i < t.buffer.length then .ok { t with buffer := t.buffer.set i r }
  else .error .tableError

/-- Modelled from the spec: table region validation. -/
def TableInstance.validate_region (t : TableInstance) (offset len : Nat) :
    Except Trap Unit :=
  if offset + len ≤ t.buffer.length then .ok () else .error .tableError

/-- `elem::ElementSegment`, modelled from the spec: a passive segment of
references with a dropped flag. -/
structure ElementSegment where
  refs : List RefVal
  dropped : Bool
deriving DecidableEq, Repr

/-- Modelled from the spec: element region validation; once dropped the
segment validates as empty. -/
def ElementSegment.validate_region (e : ElementSegment) (offset len : Nat) :
    Except Trap Unit :=
  if offset + len ≤ (if e.dropped then 0 else e.refs.length) then .ok ()
  else .error .elementError

/-- Modelled from the spec: `ElementSegment::get_at`. -/
def ElementSegment.get_at (e : ElementSegment) (i : Nat) : Except Trap RefVal :=
  if e.dropped then .error .elementError
  else
    match e.refs[i]? with
    | some r => .ok r
    | none => .error .elementError

/-- `data::DataSegment`, modelled from the spec: a passive segment of bytes
with a dropped flag. -/
structure DataSegment where
  bytes : List Nat
  dropped : Bool
deriving DecidableEq, Repr

/-- Modelled from the spec: data region validation; once dropped the segment
validates as empty. -/
def DataSegment.validate_region (d : DataSegment) (offset len : Nat) :
    Except Trap Unit :=
  if offset + len ≤ (if d.dropped then 0 else d.bytes.length) then .ok ()
  else .error .dataError

/-- Modelled from the spec: `DataSegment::raw` — the raw bytes; empty once
dropped. -/
def DataSegment.raw (d : DataSegment) : List Nat :=
  if d.dropped then [] else d.bytes

/-! ## Functions, modules and the Store -/

/-- `func::DefinedFunctionInstance`: module index, signature, declared local
types, decoded instruction vector, name. -/
structure DefinedFunc where
  module_index : Nat
  ty : FuncType
  locals : List ValType
  instructions : List Instruction
  name : String
deriving DecidableEq, Repr

/-- `func::FunctionInstance`: defined or host (native).  The host body is an
opaque callable taking the popped arguments and producing the results or
a host failure. -/
inductive FunctionInstance
  | defined (f : DefinedFunc)
  | host (name : String) (ty : FuncType) (body : List Value → Except Trap (List Value))

/-- `FunctionInstance::ty`. -/
def FunctionInstance.ty : FunctionInstance → FuncType
  | .defined f => f.ty
  | .host _ ty _ => ty

/-- `FunctionInstance::name`. -/
def FunctionInstance.name : FunctionInstance → String
  | .defined f => f.name
  | .host n _ _ => n

/-- `FunctionInstance::defined`. -/
def FunctionInstance.defined? : FunctionInstance → Option DefinedFunc
  | .defined f => some f
  | .host _ _ _ => none

/-- `module::ModuleInstance` (defined): the part the executor consults — the
module's type section (`DefinedModuleInstance::get_type`). -/
structure ModuleInstance where
  types : List FuncType
deriving Repr

/-- `store::Store`, modelled from the spec: the single ownership root.
`funcs` is the global (exec-address indexed) function array;
`func_addrs` resolves a per-module `FuncAddr` (module index, local index)
to a global exec address; memories, tables, element and data segments
are per-module arrays addressed by (module index, local index). -/
structure Store where
  funcs : List FunctionInstance
  func_addrs : List (List Nat)
  memories : List (List MemoryInstance)
  tables : List (List TableInstance)
  elems : List (List ElementSegment)
  datas : List (List DataSegment)
  modules : List ModuleInstance

/-- `Store::func_global`: the function instance at a global exec address. -/
def Store.func_global (s : Store) (exec_addr : Nat) : Option FunctionInstance :=
  s.funcs[exec_addr]?

/-- `Store::func`: resolve a `FuncAddr` (module index, local index) through
the store to the function instance and its global exec address.
Modelled from the spec: an address is resolved through the store to a
global slot. -/
def Store.func (s : Store) (addr : Nat × Nat) : Option (FunctionInstance × Nat) :=
  match (s.func_addrs[addr.1]?).bind (fun l => l[addr.2]?) with
  | some ea =>
    match s.funcs[ea]? with
    | some fi => some (fi, ea)
    | none => none
  | none => none

/-- `Store::memory` (total: a missing instance is replaced by an empty
memory; the Rust accessor panics there, a path no theorem below uses). -/
def Store.memory_at (s : Store) (m i : Nat) : MemoryInstance :=
  (s.memories.getD m []).getD i ⟨[], none⟩

/-- Write back a memory instance (no-op when the address is absent, matching
`List.set`). -/
def Store.set_memory (s : Store) (m i : Nat) (mem : MemoryInstance) : Store :=
  { s with memories := s.memories.set m ((s.memories.getD m []).set i mem) }

/-- `Store::table` (total, like `Store.memory_at`). -/
def Store.table_at (s : Store) (m i : Nat) : TableInstance :=
  (s.tables.getD m []).getD i ⟨[], none⟩

def Store.set_table (s : Store) (m i : Nat) (t : TableInstance) : Store :=
  { s with tables := s.tables.set m ((s.tables.getD m []).set i t) }

/-- `Store::elem` (total). -/
def Store.elem_at (s : Store) (m i : Nat) : ElementSegment :=
  (s.elems.getD m []).getD i ⟨[], false⟩

/-- `Store::data` (total). -/
def Store.data_at (s : Store) (m i : Nat) : DataSegment :=
  (s.datas.getD m []).getD i ⟨[], false⟩

/-- `Store::module(...).defined()` followed by `get_type`: the `type_id`-th
type of a module's type section. -/
def Store.get_type (s : Store) (m : Nat) (type_id : Nat) : Option FuncType :=
  (s.modules[m]?).bind (fun md => md.types[type_id]?)

/-! ## Executor state, interceptor and config -/

/-- The executor's owned state: program counter and stack
(`Executor { pc, stack }`). -/
structure ExecState where
  pc : ProgramCounter
  stack : List StackValue
deriving DecidableEq, Repr

/-- `interceptor::Interceptor`: the three hooks, each fallible with a trap.
The hooks are modelled as pure signal producers (the debugger's
interceptor decides its signal from its own breakpoint sets). -/
structure Interceptor where
  execute_inst_hook : Instruction → Except Trap Signal
  invoke_func_hook : String → Except Trap Signal
  after_store_hook : Nat → List Nat → Except Trap Signal

/-- The no-op interceptor: always `Signal::Next`. -/
def nop_interceptor : Interceptor :=
  ⟨fun _ => .ok .next, fun _ => .ok .next, fun _ _ => .ok .next⟩

/-- `config::Config`: the feature flag the executor consults. -/
structure Config where
  memory64 : Bool
deriving DecidableEq, Repr

/-- The result of one executor operation: a signal or a trap, together with
the executor state and store it leaves behind (Rust mutates both in
place, so the state at the moment of a trap is retained). -/
inductive Outcome
  | ok (sig : Signal) (st : ExecState) (store : Store)
  | trap (t : Trap) (st : ExecState) (store : Store)

def Outcome.signal? : Outcome → Option Signal
  | .ok sig _ _ => some sig
  | .trap _ _ _ => none

def Outcome.trap? : Outcome → Option Trap
  | .ok _ _ _ => none
  | .trap t _ _ => some t

def Outcome.state : Outcome → ExecState
  | .ok _ st _ => st
  | .trap _ st _ => st

def Outcome.store : Outcome → Store
  | .ok _ _ s => s
  | .trap _ _ s => s

/-! ## Executor helpers (`Executor::pop_as`, `pop_ref`, `mem_addr`, numeric
operator bodies) -/

/-- `Executor::pop_as::<i32>`: `pop_value` then `i32::from_value`, which
accepts exactly `Value::I32`.  On a conversion failure the value has
already been popped (Rust pops before converting). -/
def pop_as_i32 (s : List StackValue) : List StackValue × Except Trap Int :=
  match s with
  | .value (.I32 v) :: rest => (rest, .ok v)
  | .value v :: rest => (rest, .error (.unexpectedStackValueType .i32 v.value_type))
  | _ => (s, .error .stackError)

/-- `Executor::pop_as::<i64>`. -/
def pop_as_i64 (s : List StackValue) : List StackValue × Except Trap Int :=
  match s with
  | .value (.I64 v) :: rest => (rest, .ok v)
  | .value v :: rest => (rest, .error (.unexpectedStackValueType .i64 v.value_type))
  | _ => (s, .error .stackError)

/-- `Executor::pop_as::<F32>`: accepts exactly `Value::F32`, yielding the
bit pattern. -/
def pop_as_f32 (s : List StackValue) : List StackValue × Except Trap Nat :=
  match s with
  | .value (.F32 bits) :: rest => (rest, .ok bits)
  | .value v :: rest => (rest, .error (.unexpectedStackValueType .f32 v.value_type))
  | _ => (s, .error .stackError)

/-- `Executor::pop_as::<F64>`. -/
def pop_as_f64 (s : List StackValue) : List StackValue × Except Trap Nat :=
  match s with
  | .value (.F64 bits) :: rest => (rest, .ok bits)
  | .value v :: rest => (rest, .error (.unexpectedStackValueType .f64 v.value_type))
  | _ => (s, .error .stackError)

/-- `Executor::pop_ref`. -/
def pop_ref (s : List StackValue) : List StackValue × Except Trap RefVal :=
  match s with
  | .value (.Ref r) :: rest => (rest, .ok r)
  | .value v :: rest => (rest, .error (.unexpectedNonRefValueType v.value_type))
  | _ => (s, .error .stackError)

/-- `Executor::mem_addr`: the effective address of a memory access.  With
memory64 disabled, the `u64` static offset must fit in `u32`
(`offset.try_into()`), and the `u32` addition `offset + base` must not
overflow (`checked_add`); either failure is the
`memory address overflow` trap. -/
def mem_addr (base : Nat) (offset : Nat) (memory64 : Bool) : Except Trap Nat :=
  if memory64 then
    if offset + base < 2 ^ 64 then .ok (offset + base)
    else .error (.memoryAddrOverflow base offset)
  else
    if offset < 2 ^ 32 then
      if offset + base < 2 ^ 32 then .ok (offset + base)
      else .error (.memoryAddrOverflow base offset)
    else .error (.memoryAddrOverflow base offset)

/-- Modelled from the spec: `I32::try_wrapping_div` (value.rs is not among
the sources) — trap `integer divide by zero` on a zero divisor, trap
`integer overflow` on `INT32_MIN / -1`, otherwise the truncated signed
quotient (Rust `i32` division truncates toward zero). -/
def I32_try_wrapping_div (a b : Int) : Except Trap Int :=
  if b = 0 then .error .valueDivideByZero
  else if a = -(2 ^ 31) ∧ b = -1 then .error .valueIntegerOverflow
  else .ok (Int.tdiv a b)

/-- Modelled from the spec: `U32::try_wrapping_div` — both operands are the
`u32` reinterpretations of the popped i32 bit patterns; trap
`integer divide by zero` on a zero divisor, otherwise the unsigned
quotient (which always fits), pushed back as an i32 bit pattern. -/
def U32_try_wrapping_div (a b : Int) : Except Trap Int :=
  if toUnsigned32 b = 0 then .error .valueDivideByZero
  else .ok (toSigned32 (toUnsigned32 a / toUnsigned32 b))

/-- Modelled from the spec: `I32::try_wrapping_rem` — trap
`integer divide by zero` on a zero divisor, otherwise the wrapping signed
remainder (`INT32_MIN.wrapping_rem(-1) = 0`, which `Int.tmod` gives). -/
def I32_try_wrapping_rem (a b : Int) : Except Trap Int :=
  if b = 0 then .error .valueDivideByZero
  else .ok (Int.tmod a b)

/-- Modelled from the spec: `U32::try_wrapping_rem`. -/
def U32_try_wrapping_rem (a b : Int) : Except Trap Int :=
  if toUnsigned32 b = 0 then .error .valueDivideByZero
  else .ok (toSigned32 (toUnsigned32 a % toUnsigned32 b))

/-- `Executor::try_binop` at type i32 / u32 (both pop `Value::I32`): pop the
right operand, pop the left operand, apply, push the result or trap. -/
def try_binop_i32 (f : Int → Int → Except Trap Int) (st : ExecState)
    (store : Store) : Outcome :=
  match pop_as_i32 st.stack with
  | (s1, .error e) => .trap e { st with stack := s1 } store
  | (s1, .ok rhs) =>
    match pop_as_i32 s1 with
    | (s2, .error e) => .trap e { st with stack := s2 } store
    | (s2, .ok lhs) =>
      match f lhs rhs with
      | .error e => .trap e { st with stack := s2 } store
      | .ok v => .ok .next { st with stack := push_value (.I32 v) s2 } store

/-! ## Branch, return and invocation -/

/-- `Executor::do_return`: pop the return-arity operands, unwind to the
enclosing activation, pop it, push the results back, restore the saved
caller program counter when there is one. -/
def do_return (st : ExecState) (store : Store) : Outcome :=
  match current_frame st.stack with
  | .error e => .trap e st store
  | .ok frame =>
    match store.func_global st.pc.exec_addr with
    | none => .trap .invalidState st store
    | some func =>
      let arity := func.ty.returns.length
      match pop_values arity st.stack with
      | (s1, .error e) => .trap e { st with stack := s1 } store
      | (s1, .ok results) =>
        let s2 := (pop_while (fun v => !v.isActivation) s1).2
        match pop_frame s2 with
        | (s3, .error e) => .trap e { st with stack := s3 } store
        | (s3, .ok _) =>
          let st1 := { st with stack := push_values results.reverse s3 }
          match frame.ret_pc with
          | some pc => .ok .next { st1 with pc := pc } store
          | none => .ok .next st1 store

/-- The forward scan of `Executor::branch` for Block / If continuations:
starting at `idx` with nesting counter `depth`, adjust the counter on
`end` / `block` / `if` / `loop`, advance, and stop just past the
instruction that brings the counter to zero.  `fuel` bounds the scan
(one unit per instruction); running out models the Rust panic on an
out-of-bounds instruction index. -/
def scan_to_end (insts : List Instruction) : Nat → Nat → Nat → Except Trap Nat
  | _, _, 0 => .error .invalidState
  | idx, depth, fuel + 1 =>
    match insts[idx]? with
    | none => .error .invalidState
    | some inst =>
      let depth' :=
        match inst with
        | .end_ => depth - 1
        | .block _ => depth + 1
        | .if_ _ => depth + 1
        | .loop_ _ => depth + 1
        | _ => depth
      if depth' = 0 then .ok (idx + 1)
      else scan_to_end insts (idx + 1) depth' fuel

/-- The label-scope unwinding of `Executor::branch`: `depth + 1` times,
drain the leading operand run and pop one label. -/
def pop_label_scopes : Nat → List StackValue → List StackValue × Except Trap Unit
  | 0, s => (s, .ok ())
  | n + 1, s =>
    let s1 := (pop_while StackValue.isValue s).2
    match pop_label s1 with
    | (s2, .error e) => (s2, .error e)
    | (s2, .ok _) => pop_label_scopes n s2

/-- `Executor::branch`: let L be the `depth`-th enclosing label; pop
`L.arity` operands, pop `depth + 1` label scopes, push the operands
back, then continue — a Loop jumps to its saved start, Return performs a
function return, Block / If scan forward to the matching `end`. -/
def branch (depth : Nat) (st : ExecState) (store : Store) : Outcome :=
  match frame_label depth st.stack with
  | .error e => .trap e st store
  | .ok label =>
    match pop_values label.arity st.stack with
    | (s1, .error e) => .trap e { st with stack := s1 } store
    | (s1, .ok results) =>
      match pop_label_scopes (depth + 1) s1 with
      | (s2, .error e) => .trap e { st with stack := s2 } store
      | (s2, .ok _) =>
        let st1 := { st with stack := push_values results.reverse s2 }
        match label with
        | .loop_ start _ => .ok .next { st1 with pc := st1.pc.loop_jump start } store
        | .ret _ => do_return st1 store
        | _ =>
          match (store.func_global st1.pc.exec_addr).bind FunctionInstance.defined? with
          | none => .trap .invalidState st1 store
          | some f =>
            match scan_to_end f.instructions st1.pc.inst_index (depth + 1)
                (f.instructions.length + 1) with
            | .error e => .trap e st1 store
            | .ok idx =>
              .ok .next { st1 with pc := { st1.pc with inst_index := idx } } store

/-- The parameter-popping loop of `Executor::invoke`: one `pop_value` per
parameter of the callee signature; a failed pop sets the mismatch flag
but the loop keeps going.  Returns the popped values (in pop order,
i.e. right-to-left), the flag, and the remaining stack. -/
def pop_invoke_args (n : Nat) (s : List StackValue) :
    List Value × Bool × List StackValue :=
  match n with
  | 0 => ([], false, s)
  | n + 1 =>
    match pop_value s with
    | (s1, .ok v) =>
      let r := pop_invoke_args n s1
      (v :: r.1, r.2.1, r.2.2)
    | (s1, .error _) =>
      let r := pop_invoke_args n s1
      (r.1, true, r.2.2)

/-- `Executor::invoke`: resolve the callee, pop one value per parameter
(right-to-left, flagging failed pops), trap `DirectCallTypeMismatch`
when the flag is set, then either enter a defined callee (new frame with
params followed by zero-initialised locals, Return label, callee program
counter, `invoke_func` hook) or call a host body and push its results. -/
def invoke (icpt : Interceptor) (addr : Nat × Nat) (st : ExecState)
    (store : Store) : Outcome :=
  match store.func addr with
  | none => .trap (.undefinedFunc addr.2) st store
  | some (func, exec_addr) =>
    let r := pop_invoke_args func.ty.params.length st.stack
    let args0 := r.1
    let s1 := r.2.2
    let st1 := { st with stack := s1 }
    if r.2.1 then
      .trap (.directCallTypeMismatch func.name func.ty.params
        (args0.map Value.value_type)) st1 store
    else
      let args := args0.reverse
      let arity := func.ty.returns.length
      match func with
      | .defined f =>
        let pc' : ProgramCounter := ⟨f.module_index, exec_addr, 0⟩
        let frame : CallFrame :=
          ⟨f.module_index, exec_addr, args ++ f.locals.map ValType.zero_value, some st.pc⟩
        let st2 : ExecState := ⟨pc', push_label (.ret arity) (set_frame frame s1)⟩
        match icpt.invoke_func_hook f.name with
        | .error e => .trap e st2 store
        | .ok sig => .ok sig st2 store
      | .host _ _ body =>
        match body args with
        | .error e => .trap e st1 store
        | .ok results =>
          if results.length = arity then
            .ok .next { st1 with stack := results.reverse.map .value ++ s1 } store
          else .trap .invalidState st1 store

/-! ## Bulk-operation loops -/

/-- The byte-collection loop of the `MemoryCopy` arm:
`(0..n).map(|offset| src.load_as::<u8>(src_base + offset)).collect()`. -/
def load_bytes (m : MemoryInstance) (base : Nat) : Nat → Except Trap (List Nat)
  | 0 => .ok []
  | n + 1 =>
    match m.load_u8 base with
    | .error e => .error e
    | .ok b =>
      match load_bytes m (base + 1) n with
      | .error e => .error e
      | .ok bs => .ok (b :: bs)

/-- The reference-collection loop of the `TableCopy` arm:
`(0..n).map(|offset| src.get_at(src_base + offset)).collect()`. -/
def table_reads (t : TableInstance) (base : Nat) : Nat → Except Trap (List RefVal)
  | 0 => .ok []
  | n + 1 =>
    match t.get_at base with
    | .error e => .error e
    | .ok r =>
      match table_reads t (base + 1) n with
      | .error e => .error e
      | .ok rs => .ok (r :: rs)

/-- The write loop of the `TableFill` arm:
`for index in index..(index + n) { table.set_at(index, ref_val)? }`.
The table is threaded through, so a failing write (impossible after
validation) leaves the earlier writes in place, as the in-place Rust
mutation does. -/
def table_fill_loop (t : TableInstance) (idx : Nat) (r : RefVal) :
    Nat → TableInstance × Except Trap Unit
  | 0 => (t, .ok ())
  | n + 1 =>
    match t.set_at idx r with
    | .error e => (t, .error e)
    | .ok t' => table_fill_loop t' (idx + 1) r n

/-- The write loop of the `TableCopy` arm:
`for (offset, val) in values { dst.set_at(dst_base + offset, val)? }`. -/
def table_write_loop (t : TableInstance) (idx : Nat) :
    List RefVal → TableInstance × Except Trap Unit
  | [] => (t, .ok ())
  | r :: rs =>
    match t.set_at idx r with
    | .error e => (t, .error e)
    | .ok t' => table_write_loop t' (idx + 1) rs

/-- The loop of the `TableInit` arm: `for offset in 0..n { let val =
elem.get_at(src_base + offset)?; table.set_at(dst_base + offset, val)? }`. -/
def table_init_loop (t : TableInstance) (e : ElementSegment) (dst src : Nat) :
    Nat → TableInstance × Except Trap Unit
  | 0 => (t, .ok ())
  | n + 1 =>
    match e.get_at src with
    | .error err => (t, .error err)
    | .ok r =>
      match t.set_at dst r with
      | .error err => (t, .error err)
      | .ok t' => table_init_loop t' e (dst + 1) (src + 1) n

/-! ## The instruction interpreter (`Executor::execute_inst`) -/

/-- `Executor::memory`: the memory at index 0 of the current frame's module
(paired with the module index, for writing the instance back). -/
def executor_memory (st : ExecState) (store : Store) :
    Except Trap (Nat × MemoryInstance) :=
  match current_frame st.stack with
  | .error e => .error e
  | .ok frame => .ok (frame.module_index, store.memory_at frame.module_index 0)

/-- The match arms of `Executor::execute_inst` exercised by the claims,
translated arm by arm from the source.  `module_index` is the defining
module of the executing function, exactly as in the Rust signature.
Arms of the source that no claim touches (the structured control
operators, the remaining numeric operators, …) are not modelled and
dispatch to `Trap.invalidState`; no theorem below applies the
interpreter to them. -/
def execute_inst_core (icpt : Interceptor) (cfg : Config) (inst : Instruction)
    (module_index : Nat) (st : ExecState) (store : Store) : Outcome :=
  match inst with
  | .unreachable => .trap .unreachable st store
  | .nop => .ok .next st store
  | .i32_const v => .ok .next { st with stack := push_value (.I32 v) st.stack } store
  | .i64_const v => .ok .next { st with stack := push_value (.I64 v) st.stack } store
  | .else_ => branch 0 st store
  | .br depth => branch depth st store
  | .br_if depth =>
    match pop_value st.stack with
    | (s1, .error e) => .trap e { st with stack := s1 } store
    | (s1, .ok v) =>
      if v ≠ Value.I32 0 then branch depth { st with stack := s1 } store
      else .ok .next { st with stack := s1 } store
  | .return_ => do_return st store
  | .call function_index =>
    match current_frame st.stack with
    | .error e => .trap e st store
    | .ok frame => invoke icpt (frame.module_index, function_index) st store
  | .call_indirect index table_index =>
    match current_frame st.stack with
    | .error e => .trap e st store
    | .ok frame =>
      match store.get_type frame.module_index index with
      | none => .trap .invalidState st store
      | some ty =>
        match pop_as_i32 st.stack with
        | (s1, .error e) => .trap e { st with stack := s1 } store
        | (s1, .ok buf_index) =>
          let st1 := { st with stack := s1 }
          let tbl := store.table_at frame.module_index table_index
          let i := usize_of_i32 buf_index
          match tbl.get_at i with
          | .error e => .trap e st1 store
          | .ok func_ref =>
            match func_ref with
            | .nullRef _ => .trap (.undefinedFunc i) st1 store
            | .externRef _ =>
              .trap (.elementTypeMismatch .funcRef func_ref) st1 store
            | .funcRef fa =>
              match store.func fa with
              | none => .trap (.undefinedFunc fa.2) st1 store
              | some (func, _) =>
                if func.ty = ty then invoke icpt fa st1 store
                else .trap (.indirectCallTypeMismatch func.name ty func.ty) st1 store
  | .memory_grow =>
    match pop_as_i32 st.stack with
    | (s1, .error e) => .trap e { st with stack := s1 } store
    | (s1, .ok grow_page) =>
      let st1 := { st with stack := s1 }
      match executor_memory st1 store with
      | .error e => .trap e st1 store
      | .ok (mem_module, mem) =>
        let size := mem.page_count
        match mem.grow (usize_of_i32 grow_page) with
        | .ok mem' =>
          .ok .next { st1 with stack := push_value (.I32 (i32_of_usize size)) s1 }
            (store.set_memory mem_module 0 mem')
        | .error _ =>
          .ok .next { st1 with stack := push_value (.I32 (-1)) s1 } store
  | .memory_copy src dst =>
    let dst_mem := store.memory_at module_index dst
    let src_mem := store.memory_at module_index src
    match pop_as_i32 st.stack with
    | (s1, .error e) => .trap e { st with stack := s1 } store
    | (s1, .ok n_raw) =>
      match pop_as_i32 s1 with
      | (s2, .error e) => .trap e { st with stack := s2 } store
      | (s2, .ok src_raw) =>
        match pop_as_i32 s2 with
        | (s3, .error e) => .trap e { st with stack := s3 } store
        | (s3, .ok dst_raw) =>
          let st1 := { st with stack := s3 }
          let n := usize_of_i32 n_raw
          let src_base := usize_of_i32 src_raw
          let dst_base := usize_of_i32 dst_raw
          match src_mem.validate_region src_base n with
          | .error e => .trap e st1 store
          | .ok _ =>
            match load_bytes src_mem src_base n with
            | .error e => .trap e st1 store
            | .ok values =>
              match dst_mem.validate_region dst_base n with
              | .error e => .trap e st1 store
              | .ok _ =>
                match dst_mem.store dst_base values with
                | .error e => .trap e st1 store
                | .ok m' => .ok .next st1 (store.set_memory module_index dst m')
  | .memory_fill mem =>
    let m := store.memory_at module_index mem
    match pop_as_i32 st.stack with
    | (s1, .error e) => .trap e { st with stack := s1 } store
    | (s1, .ok n_raw) =>
      match pop_as_i32 s1 with
      | (s2, .error e) => .trap e { st with stack := s2 } store
      | (s2, .ok val) =>
        match pop_as_i32 s2 with
        | (s3, .error e) => .trap e { st with stack := s3 } store
        | (s3, .ok offset_raw) =>
          let st1 := { st with stack := s3 }
          let n := usize_of_i32 n_raw
          let byte := toUnsigned32 val % 256
          let offset := usize_of_i32 offset_raw
          match m.validate_region offset n with
          | .error e => .trap e st1 store
          | .ok _ =>
            match m.store offset (List.replicate n byte) with
            | .error e => .trap e st1 store
            | .ok m' => .ok .next st1 (store.set_memory module_index mem m')
  | .memory_init segment mem =>
    let m := store.memory_at module_index mem
    let d := store.data_at module_index segment
    match pop_as_i32 st.stack with
    | (s1, .error e) => .trap e { st with stack := s1 } store
    | (s1, .ok n_raw) =>
      match pop_as_i32 s1 with
      | (s2, .error e) => .trap e { st with stack := s2 } store
      | (s2, .ok src_raw) =>
        match pop_as_i32 s2 with
        | (s3, .error e) => .trap e { st with stack := s3 } store
        | (s3, .ok dst_raw) =>
          let st1 := { st with stack := s3 }
          let n := usize_of_i32 n_raw
          let src_base := usize_of_i32 src_raw
          let dst_base := usize_of_i32 dst_raw
          match m.validate_region dst_base n with
          | .error e => .trap e st1 store
          | .ok _ =>
            match d.validate_region src_base n with
            | .error e => .trap e st1 store
            | .ok _ =>
              match m.store dst_base ((d.raw.drop src_base).take n) with
              | .error e => .trap e st1 store
              | .ok m' => .ok .next st1 (store.set_memory module_index mem m')
  | .table_fill table =>
    let t := store.table_at module_index table
    match pop_as_i32 st.stack with
    | (s1, .error e) => .trap e { st with stack := s1 } store
    | (s1, .ok n_raw) =>
      match pop_ref s1 with
      | (s2, .error e) => .trap e { st with stack := s2 } store
      | (s2, .ok ref_val) =>
        match pop_as_i32 s2 with
        | (s3, .error e) => .trap e { st with stack := s3 } store
        | (s3, .ok index_raw) =>
          let st1 := { st with stack := s3 }
          let n := usize_of_i32 n_raw
          let index := usize_of_i32 index_raw
          match t.validate_region index n with
          | .error e => .trap e st1 store
          | .ok _ =>
            let r := table_fill_loop t index ref_val n
            let store' := store.set_table module_index table r.1
            match r.2 with
            | .error e => .trap e st1 store'
            | .ok _ => .ok .next st1 store'
  | .table_copy dst_table src_table =>
    let dst := store.table_at module_index dst_table
    let src := store.table_at module_index src_table
    match pop_as_i32 st.stack with
    | (s1, .error e) => .trap e { st with stack := s1 } store
    | (s1, .ok n_raw) =>
      match pop_as_i32 s1 with
      | (s2, .error e) => .trap e { st with stack := s2 } store
      | (s2, .ok src_raw) =>
        match pop_as_i32 s2 with
        | (s3, .error e) => .trap e { st with stack := s3 } store
        | (s3, .ok dst_raw) =>
          let st1 := { st with stack := s3 }
          let n := usize_of_i32 n_raw
          let src_base := usize_of_i32 src_raw
          let dst_base := usize_of_i32 dst_raw
          match table_reads src src_base n with
          | .error e => .trap e st1 store
          | .ok values =>
            match src.validate_region src_base n with
            | .error e => .trap e st1 store
            | .ok _ =>
              match dst.validate_region dst_base n with
              | .error e => .trap e st1 store
              | .ok _ =>
                let r := table_write_loop dst dst_base (values.take n)
                let store' := store.set_table module_index dst_table r.1
                match r.2 with
                | .error e => .trap e st1 store'
                | .ok _ => .ok .next st1 store'
  | .table_init segment table =>
    let t := store.table_at module_index table
    let el := store.elem_at module_index segment
    match pop_as_i32 st.stack with
    | (s1, .error e) => .trap e { st with stack := s1 } store
    | (s1, .ok n_raw) =>
      match pop_as_i32 s1 with
      | (s2, .error e) => .trap e { st with stack := s2 } store
      | (s2, .ok src_raw) =>
        match pop_as_i32 s2 with
        | (s3, .error e) => .trap e { st with stack := s3 } store
        | (s3, .ok dst_raw) =>
          let st1 := { st with stack := s3 }
          let n := usize_of_i32 n_raw
          let src_base := usize_of_i32 src_raw
          let dst_base := usize_of_i32 dst_raw
          match t.validate_region dst_base n with
          | .error e => .trap e st1 store
          | .ok _ =>
            match el.validate_region src_base n with
            | .error e => .trap e st1 store
            | .ok _ =>
              let r := table_init_loop t el dst_base src_base n
              let store' := store.set_table module_index table r.1
              match r.2 with
              | .error e => .trap e st1 store'
              | .ok _ => .ok .next st1 store'
  | .i32_store offset =>
    match pop_as_i32 st.stack with
    | (s1, .error e) => .trap e { st with stack := s1 } store
    | (s1, .ok val) =>
      match pop_as_i32 s1 with
      | (s2, .error e) => .trap e { st with stack := s2 } store
      | (s2, .ok base_raw) =>
        let st1 := { st with stack := s2 }
        let base := toUnsigned32 base_raw
        match mem_addr base offset cfg.memory64 with
        | .error e => .trap e st1 store
        | .ok addr =>
          match executor_memory st1 store with
          | .error e => .trap e st1 store
          | .ok (mem_module, mem) =>
            let buf := i32_to_le_bytes val
            match mem.store addr buf with
            | .error e => .trap e st1 store
            | .ok mem' =>
              let store' := store.set_memory mem_module 0 mem'
              match icpt.after_store_hook addr buf with
              | .error e => .trap e st1 store'
              | .ok sig => .ok sig st1 store'
  | .i32_load offset =>
    match pop_as_i32 st.stack with
    | (s1, .error e) => .trap e { st with stack := s1 } store
    | (s1, .ok base_raw) =>
      let st1 := { st with stack := s1 }
      let base := toUnsigned32 base_raw
      match mem_addr base offset cfg.memory64 with
      | .error e => .trap e st1 store
      | .ok addr =>
        match executor_memory st1 store with
        | .error e => .trap e st1 store
        | .ok (_, mem) =>
          match mem.load_i32 addr with
          | .error e => .trap e st1 store
          | .ok v => .ok .next { st1 with stack := push_value (.I32 v) s1 } store
  | .i32_div_s => try_binop_i32 I32_try_wrapping_div st store
  | .i32_div_u => try_binop_i32 U32_try_wrapping_div st store
  | .i32_rem_s => try_binop_i32 I32_try_wrapping_rem st store
  | .i32_rem_u => try_binop_i32 U32_try_wrapping_rem st store
  | .i32_reinterpret_f32 =>
    match pop_as_f32 st.stack with
    | (s1, .error e) => .trap e { st with stack := s1 } store
    | (s1, .ok bits) =>
      .ok .next { st with stack := push_value (.I32 (toSigned32 bits)) s1 } store
  | .i64_reinterpret_f64 =>
    match pop_as_f64 st.stack with
    | (s1, .error e) => .trap e { st with stack := s1 } store
    | (s1, .ok bits) =>
      .ok .next { st with stack := push_value (.I64 (toSigned64 bits)) s1 } store
  | .f32_reinterpret_i32 =>
    match pop_as_i32 st.stack with
    | (s1, .error e) => .trap e { st with stack := s1 } store
    | (s1, .ok v) =>
      .ok .next { st with stack := push_value (.F32 (toUnsigned32 v)) s1 } store
  | .f64_reinterpret_i64 =>
    match pop_as_i64 st.stack with
    | (s1, .error e) => .trap e { st with stack := s1 } store
    | (s1, .ok v) =>
      .ok .next { st with stack := push_value (.F64 (toUnsigned64 v)) s1 } store
  | _ => .trap .invalidState st store

/-- `Executor::execute_inst`: increment the instruction index, run the
matched arm, then — whatever the arm produced — report `Signal::End`
when every activation has been popped
(`if self.stack.is_over_top_level() { Ok(Signal::End) } else { result }`). -/
def execute_inst (icpt : Interceptor) (cfg : Config) (inst : Instruction)
    (module_index : Nat) (st : ExecState) (store : Store) : Outcome :=
  let st1 := { st with pc := st.pc.inc_inst_index }
  let r := execute_inst_core icpt cfg inst module_index st1 store
  if is_over_top_level r.state.stack then .ok .end_ r.state r.store else r

/-- The signal combination at the end of `Executor::execute_step`:
`(_, End) => End; (signal, Next) => signal; (_, other) => other`. -/
def combine_signal : Signal → Signal → Signal
  | _, .end_ => .end_
  | s, .next => s
  | _, other => other

/-- `Executor::execute_step`: resolve the current function and instruction
(`Trap::NoMoreInstruction` when the program counter is past the end),
call the interceptor's `execute_inst` pre-hook, then — regardless of the
signal the hook returned — execute the instruction, and combine the two
signals. -/
def execute_step (icpt : Interceptor) (cfg : Config) (st : ExecState)
    (store : Store) : Outcome :=
  match (store.func_global st.pc.exec_addr).bind FunctionInstance.defined? with
  | none => .trap .invalidState st store
  | some func =>
    match func.instructions[st.pc.inst_index]? with
    | none => .trap .noMoreInstruction st store
    | some inst =>
      match icpt.execute_inst_hook inst with
      | .error e => .trap e st store
      | .ok signal =>
        match execute_inst icpt cfg inst func.module_index st store with
        | .trap e st' store' => .trap e st' store'
        | .ok result st' store' => .ok (combine_signal signal result) st' store'

/-! ## The debugger REPL init file (`run_loop`, crates/debugger/src/lib.rs) -/

/-- The init-file path `run_loop` computes:
`init_source.unwrap_or("~/.wasminspect_init".to_string())`.  The string
is handed to `File::open` as-is. -/
def init_file_candidate (init_source : Option String) : String :=
  init_source.getD "~/.wasminspect_init"

/-- The init-command loading of `run_loop`.  The file system is abstracted
as a map from paths to file contents; `File::open` (Rust std) opens
exactly the path it is given and performs no shell-style `~` expansion.
The error handling is translated from the source: when the open fails,
the default path yields no commands (absence is not an error), while an
explicitly given path propagates the error. -/
def run_loop_init_lines (fs : String → Option (List String))
    (init_source : Option String) : Except String (List String) :=
  let is_default := init_source.isNone
  match fs (init_file_candidate init_source) with
  | some lines => .ok lines
  | none => if is_default then .ok [] else .error "open failed"

/-! ## General lemmas about the embedding -/

theorem toUnsigned32_lt (v : Int) : toUnsigned32 v < 2 ^ 32 := by
  have h1 := Int.emod_lt_of_pos v (by norm_num : (0 : Int) < 2 ^ 32)
  have h2 := Int.emod_nonneg v (by norm_num : (2 ^ 32 : Int) ≠ 0)
  simp only [toUnsigned32]
  omega

theorem toUnsigned32_eq_zero_iff (v : Int) (h1 : -(2 ^ 31) ≤ v) (h2 : v < 2 ^ 31) :
    toUnsigned32 v = 0 ↔ v = 0 := by
  simp only [toUnsigned32]
  omega

/-- A stack with a current frame still holds an activation. -/
theorem any_isActivation_of_current_frame {s : List StackValue} {fr : CallFrame}
    (h : current_frame s = .ok fr) : s.any StackValue.isActivation = true := by
  induction s with
  | nil => simp [current_frame] at h
  | cons x rest ih =>
    cases x with
    | value v =>
      simp only [current_frame] at h
      simp [List.any_cons, ih h]
    | label l =>
      simp only [current_frame] at h
      simp [List.any_cons, ih h]
    | activation f => simp [List.any_cons, StackValue.isActivation]

/-- A stack with a current frame is not over top level. -/
theorem is_over_top_level_false_of_current_frame {s : List StackValue}
    {fr : CallFrame} (h : current_frame s = .ok fr) :
    is_over_top_level s = false := by
  simp [is_over_top_level, any_isActivation_of_current_frame h]

theorem memory_validate_region_ok {m : MemoryInstance} {offset len : Nat}
    (h : m.validate_region offset len = .ok ()) :
    offset + len ≤ m.bytes.length := by
  by_contra hc
  simp [MemoryInstance.validate_region, hc] at h

theorem table_validate_region_ok {t : TableInstance} {offset len : Nat}
    (h : t.validate_region offset len = .ok ()) :
    offset + len ≤ t.buffer.length := by
  by_contra hc
  simp [TableInstance.validate_region, hc] at h

theorem elem_validate_region_ok {e : ElementSegment} {offset len : Nat}
    (h : e.validate_region offset len = .ok ()) :
    offset + len ≤ (if e.dropped then 0 else e.refs.length) := by
  by_contra hc
  rw [ElementSegment.validate_region, if_neg hc] at h
  exact Except.noConfusion h

/-- A validated table fill never fails mid-loop, and never changes the
buffer length. -/
theorem table_fill_loop_ok (n : Nat) :
    ∀ (t : TableInstance) (idx : Nat) (r : RefVal), idx + n ≤ t.buffer.length →
    (table_fill_loop t idx r n).2 = .ok () := by
  induction n with
  | zero => intro t idx r _; simp [table_fill_loop]
  | succ n ih =>
    intro t idx r h
    have hidx : idx < t.buffer.length := by omega
    simp only [table_fill_loop, TableInstance.set_at, hidx, if_pos]
    exact ih _ _ _ (by simp; omega)

/-- A validated table write loop never fails mid-loop. -/
theorem table_write_loop_ok (vs : List RefVal) :
    ∀ (t : TableInstance) (idx : Nat), idx + vs.length ≤ t.buffer.length →
    (table_write_loop t idx vs).2 = .ok () := by
  induction vs with
  | nil => intro t idx _; simp [table_write_loop]
  | cons v vs ih =>
    intro t idx h
    have hidx : idx < t.buffer.length := by simp at h; omega
    simp only [table_write_loop, TableInstance.set_at, hidx, if_pos]
    exact ih _ _ (by simp at h ⊢; omega)

/-- A validated table init never fails mid-loop. -/
theorem table_init_loop_ok (n : Nat) :
    ∀ (t : TableInstance) (e : ElementSegment) (dst src : Nat),
    dst + n ≤ t.buffer.length →
    src + n ≤ (if e.dropped then 0 else e.refs.length) →
    (table_init_loop t e dst src n).2 = .ok () := by
  induction n with
  | zero => intro t e dst src _ _; simp [table_init_loop]
  | succ n ih =>
    intro t e dst src ht he
    have hdrop : e.dropped = false := by
      cases hd : e.dropped
      · rfl
      · exfalso; rw [hd] at he; simp at he
    rw [hdrop] at he
    simp only [Bool.false_eq_true, if_false] at he
    have hsrc : src < e.refs.length := by omega
    have hdst : dst < t.buffer.length := by omega
    simp only [table_init_loop, ElementSegment.get_at, hdrop, Bool.false_eq_true,
      if_false, List.getElem?_eq_getElem hsrc, TableInstance.set_at, hdst, if_pos]
    refine ih _ _ _ _ (by simp; omega) ?_
    rw [hdrop]
    simp only [Bool.false_eq_true, if_false]
    omega

/-- The two trap sites of `mem_addr` with memory64 disabled collapse to a
single bound check on the sum. -/
theorem mem_addr_spec_false (base off : Nat) :
    mem_addr base off false =
      if off + base < 2 ^ 32 then .ok (off + base)
      else .error (.memoryAddrOverflow base off) := by
  unfold mem_addr
  rw [if_neg (by decide : ¬ (false = true))]
  by_cases h1 : off < 2 ^ 32
  · rw [if_pos h1]
  · rw [if_neg h1, if_neg (by omega)]

/-- When `base + off` does not fit in 32 bits, `mem_addr` (memory64
disabled) reports the `memory address overflow` trap. -/
theorem mem_addr_error_of_overflow (base off : Nat) (h : 2 ^ 32 ≤ base + off) :
    mem_addr base off false = .error (.memoryAddrOverflow base off) := by
  rw [mem_addr_spec_false, if_neg (by omega)]

/-! ## Claim theorems -/

/-- C5: with memory64 disabled, `mem_addr` traps `memory address overflow`
exactly when `base + offset` cannot be represented in 32 bits, and an
`i32.store` / `i32.load` whose effective address overflows traps before
touching the memory: the store is returned unchanged, no byte read or
written. -/
theorem C5_mem_addr_overflow (icpt : Interceptor) (m : Nat) (st : ExecState)
    (store : Store) (offset : Nat) (v b : Int) (rest : List StackValue) :
    (∀ base off : Nat, base < 2 ^ 32 →
      (mem_addr base off false = .error (.memoryAddrOverflow base off) ↔
        2 ^ 32 ≤ base + off) ∧
      (base + off < 2 ^ 32 → mem_addr base off false = .ok (off + base))) ∧
    (st.stack = .value (.I32 v) :: .value (.I32 b) :: rest →
      2 ^ 32 ≤ toUnsigned32 b + offset →
      execute_inst_core icpt ⟨false⟩ (.i32_store offset) m st store =
        .trap (.memoryAddrOverflow (toUnsigned32 b) offset)
          { st with stack := rest } store) ∧
    (st.stack = .value (.I32 b) :: rest →
      2 ^ 32 ≤ toUnsigned32 b + offset →
      execute_inst_core icpt ⟨false⟩ (.i32_load offset) m st store =
        .trap (.memoryAddrOverflow (toUnsigned32 b) offset)
          { st with stack := rest } store) := by
  refine ⟨?_, ?_, ?_⟩
  · intro base off hb
    constructor
    · constructor
      · intro h
        by_contra hc
        rw [mem_addr_spec_false, if_pos (by omega)] at h
        exact Except.noConfusion h
      · exact mem_addr_error_of_overflow base off
    · intro h
      rw [mem_addr_spec_false, if_pos (by omega)]
  · intro hs hov
    have hm := mem_addr_error_of_overflow (toUnsigned32 b) offset hov
    simp [execute_inst_core, hs, pop_as_i32, hm]
  · intro hs hov
    have hm := mem_addr_error_of_overflow (toUnsigned32 b) offset hov
    simp [execute_inst_core, hs, pop_as_i32, hm]

def empty_store : Store := ⟨[], [], [], [], [], [], []⟩

def w5_state : ExecState := ⟨⟨0, 0, 0⟩, [.value (.I32 7), .value (.I32 0)]⟩

theorem C5_witness :
    execute_inst_core nop_interceptor ⟨false⟩ (.i32_store (2 ^ 32)) 0 w5_state
        empty_store =
      .trap (.memoryAddrOverflow (toUnsigned32 0) (2 ^ 32))
        { w5_state with stack := [] } empty_store ∧
    (mem_addr 0 (2 ^ 32) false = .error (.memoryAddrOverflow 0 (2 ^ 32)) ↔
      2 ^ 32 ≤ 0 + 2 ^ 32) := by
  have h := C5_mem_addr_overflow nop_interceptor 0 w5_state empty_store
    (2 ^ 32) 7 0 []
  refine ⟨h.2.1 rfl ?_, (h.1 0 (2 ^ 32) (by norm_num)).1⟩
  simp [toUnsigned32]

/-- C7: the i32 divide / remainder operators — all four trap
`integer divide by zero` on a zero divisor; signed divide traps
`integer overflow` on `INT32_MIN / -1`; unsigned divide never traps on a
nonzero divisor and computes the unsigned quotient, in particular
`i32.div_u(INT32_MIN, -1) = 0`. -/
theorem C7_div_rem (icpt : Interceptor) (cfg : Config) (m : Nat) (st : ExecState)
    (store : Store) (a b : Int) (rest : List StackValue)
    (ha1 : -(2 ^ 31) ≤ a) (ha2 : a < 2 ^ 31)
    (hb1 : -(2 ^ 31) ≤ b) (hb2 : b < 2 ^ 31)
    (hs : st.stack = .value (.I32 b) :: .value (.I32 a) :: rest) :
    (b = 0 →
      execute_inst_core icpt cfg .i32_div_s m st store =
        .trap .valueDivideByZero { st with stack := rest } store ∧
      execute_inst_core icpt cfg .i32_div_u m st store =
        .trap .valueDivideByZero { st with stack := rest } store ∧
      execute_inst_core icpt cfg .i32_rem_s m st store =
        .trap .valueDivideByZero { st with stack := rest } store ∧
      execute_inst_core icpt cfg .i32_rem_u m st store =
        .trap .valueDivideByZero { st with stack := rest } store) ∧
    (a = -(2 ^ 31) → b = -1 →
      execute_inst_core icpt cfg .i32_div_s m st store =
        .trap .valueIntegerOverflow { st with stack := rest } store) ∧
    (b ≠ 0 →
      execute_inst_core icpt cfg .i32_div_u m st store =
        .ok .next
          { st with
            stack := .value (.I32 (toSigned32 (toUnsigned32 a / toUnsigned32 b))) :: rest }
          store) ∧
    (a = -(2 ^ 31) → b = -1 →
      execute_inst_core icpt cfg .i32_div_u m st store =
        .ok .next { st with stack := .value (.I32 0) :: rest } store) := by
  refine ⟨?_, ?_, ?_, ?_⟩
  · intro h0
    subst h0
    refine ⟨?_, ?_, ?_, ?_⟩ <;>
      simp [execute_inst_core, try_binop_i32, hs, pop_as_i32,
        I32_try_wrapping_div, U32_try_wrapping_div, I32_try_wrapping_rem,
        U32_try_wrapping_rem, toUnsigned32]
  · intro h1 h2
    subst h1; subst h2
    simp [execute_inst_core, try_binop_i32, hs, pop_as_i32, I32_try_wrapping_div]
  · intro h0
    have hz : ¬ toUnsigned32 b = 0 := by
      rw [toUnsigned32_eq_zero_iff b hb1 hb2]
      exact h0
    simp [execute_inst_core, try_binop_i32, hs, pop_as_i32,
      U32_try_wrapping_div, hz, push_value]
  · intro h1 h2
    subst h1; subst h2
    have hz : ¬ toUnsigned32 (-1 : Int) = 0 := by decide
    simp [execute_inst_core, try_binop_i32, hs, pop_as_i32,
      U32_try_wrapping_div, hz, push_value]
    decide

def w7_state (a b : Int) : ExecState :=
  ⟨⟨0, 0, 0⟩, [.value (.I32 b), .value (.I32 a)]⟩

theorem C7_witness :
    execute_inst_core nop_interceptor ⟨false⟩ .i32_div_s 0 (w7_state 5 0)
        empty_store =
      .trap .valueDivideByZero { w7_state 5 0 with stack := [] } empty_store ∧
    execute_inst_core nop_interceptor ⟨false⟩ .i32_div_s 0
        (w7_state (-(2 ^ 31)) (-1)) empty_store =
      .trap .valueIntegerOverflow { w7_state (-(2 ^ 31)) (-1) with stack := [] }
        empty_store ∧
    execute_inst_core nop_interceptor ⟨false⟩ .i32_div_u 0
        (w7_state (-(2 ^ 31)) (-1)) empty_store =
      .ok .next { w7_state (-(2 ^ 31)) (-1) with stack := [.value (.I32 0)] }
        empty_store := by
  have h1 := C7_div_rem nop_interceptor ⟨false⟩ 0 (w7_state 5 0) empty_store
    5 0 [] (by norm_num) (by norm_num) (by norm_num) (by norm_num) rfl
  have h2 := C7_div_rem nop_interceptor ⟨false⟩ 0 (w7_state (-(2 ^ 31)) (-1))
    empty_store (-(2 ^ 31)) (-1) [] (by norm_num) (by norm_num) (by norm_num)
    (by norm_num) rfl
  exact ⟨(h1.1 rfl).1, h2.2.1 rfl rfl, h2.2.2.2 rfl rfl⟩

/-- C8: the reinterpret operators compose to the identity on bit patterns,
in both orders and at both widths; the bit pattern (including any NaN
payload) is preserved exactly. -/
theorem C8_reinterpret_roundtrip (icpt : Interceptor) (cfg : Config) (m : Nat)
    (st : ExecState) (store : Store) (rest : List StackValue) :
    (∀ bits : Nat, bits < 2 ^ 32 → st.stack = .value (.F32 bits) :: rest →
      execute_inst_core icpt cfg .i32_reinterpret_f32 m st store =
        .ok .next { st with stack := .value (.I32 (toSigned32 bits)) :: rest }
          store ∧
      execute_inst_core icpt cfg .f32_reinterpret_i32 m
          { st with stack := .value (.I32 (toSigned32 bits)) :: rest } store =
        .ok .next { st with stack := .value (.F32 bits) :: rest } store) ∧
    (∀ v : Int, -(2 ^ 31) ≤ v → v < 2 ^ 31 →
      st.stack = .value (.I32 v) :: rest →
      execute_inst_core icpt cfg .f32_reinterpret_i32 m st store =
        .ok .next { st with stack := .value (.F32 (toUnsigned32 v)) :: rest }
          store ∧
      execute_inst_core icpt cfg .i32_reinterpret_f32 m
          { st with stack := .value (.F32 (toUnsigned32 v)) :: rest } store =
        .ok .next { st with stack := .value (.I32 v) :: rest } store) ∧
    (∀ bits : Nat, bits < 2 ^ 64 → st.stack = .value (.F64 bits) :: rest →
      execute_inst_core icpt cfg .i64_reinterpret_f64 m st store =
        .ok .next { st with stack := .value (.I64 (toSigned64 bits)) :: rest }
          store ∧
      execute_inst_core icpt cfg .f64_reinterpret_i64 m
          { st with stack := .value (.I64 (toSigned64 bits)) :: rest } store =
        .ok .next { st with stack := .value (.F64 bits) :: rest } store) ∧
    (∀ v : Int, -(2 ^ 63) ≤ v → v < 2 ^ 63 →
      st.stack = .value (.I64 v) :: rest →
      execute_inst_core icpt cfg .f64_reinterpret_i64 m st store =
        .ok .next { st with stack := .value (.F64 (toUnsigned64 v)) :: rest }
          store ∧
      execute_inst_core icpt cfg .i64_reinterpret_f64 m
          { st with stack := .value (.F64 (toUnsigned64 v)) :: rest } store =
        .ok .next { st with stack := .value (.I64 v) :: rest } store) := by
  refine ⟨?_, ?_, ?_, ?_⟩
  · intro bits hb hs
    constructor
    · simp [execute_inst_core, hs, pop_as_f32, push_value]
    · simp [execute_inst_core, pop_as_i32, push_value,
        toUnsigned32_toSigned32 bits hb]
  · intro v h1 h2 hs
    constructor
    · simp [execute_inst_core, hs, pop_as_i32, push_value]
    · simp [execute_inst_core, pop_as_f32, push_value,
        toSigned32_toUnsigned32 v h1 h2]
  · intro bits hb hs
    constructor
    · simp [execute_inst_core, hs, pop_as_f64, push_value]
    · simp [execute_inst_core, pop_as_i64, push_value,
        toUnsigned64_toSigned64 bits hb]
  · intro v h1 h2 hs
    constructor
    · simp [execute_inst_core, hs, pop_as_i64, push_value]
    · simp [execute_inst_core, pop_as_f64, push_value,
        toSigned64_toUnsigned64 v h1 h2]

def w8_state : ExecState := ⟨⟨0, 0, 0⟩, [.value (.F32 2143289345)]⟩

theorem C8_witness :
    execute_inst_core nop_interceptor ⟨false⟩ .i32_reinterpret_f32 0 w8_state
        empty_store =
      .ok .next { w8_state with stack := [.value (.I32 (toSigned32 2143289345))] }
        empty_store ∧
    execute_inst_core nop_interceptor ⟨false⟩ .f32_reinterpret_i32 0
        { w8_state with stack := [.value (.I32 (toSigned32 2143289345))] }
        empty_store =
      .ok .next { w8_state with stack := [.value (.F32 2143289345)] }
        empty_store := by
  have h := (C8_reinterpret_roundtrip nop_interceptor ⟨false⟩ 0 w8_state
    empty_store []).1 2143289345 (by norm_num) rfl
  exact ⟨h.1, h.2⟩

/-- C10: `br_if` pops one stack value with no check of its type and takes
the branch exactly when the popped value differs from the literal value
`I32(0)`; a non-i32 condition therefore takes the branch instead of
trapping. -/
theorem C10_br_if (icpt : Interceptor) (cfg : Config) (d m : Nat)
    (st : ExecState) (store : Store) (v : Value) (rest : List StackValue)
    (hs : st.stack = .value v :: rest) :
    (v = .I32 0 →
      execute_inst_core icpt cfg (.br_if d) m st store =
        .ok .next { st with stack := rest } store) ∧
    (v ≠ .I32 0 →
      execute_inst_core icpt cfg (.br_if d) m st store =
        branch d { st with stack := rest } store) := by
  constructor
  · intro h0
    subst h0
    simp [execute_inst_core, hs, pop_value]
  · intro h0
    simp [execute_inst_core, hs, pop_value, h0]

def w10_func : DefinedFunc := ⟨0, ⟨[], []⟩, [], [.br_if 0, .end_], "f"⟩

def w10_store : Store :=
  ⟨[.defined w10_func], [[0]], [[]], [[]], [[]], [[]], [⟨[]⟩]⟩

def w10_state : ExecState :=
  ⟨⟨0, 0, 1⟩, [.value (.I64 0), .label (.block 0), .activation ⟨0, 0, [], none⟩]⟩

theorem C10_witness :
    execute_inst_core nop_interceptor ⟨false⟩ (.br_if 0) 0 w10_state w10_store =
      branch 0
        { w10_state with stack := [.label (.block 0), .activation ⟨0, 0, [], none⟩] }
        w10_store ∧
    Value.I64 0 ≠ Value.I32 0 := by
  have h := C10_br_if nop_interceptor ⟨false⟩ 0 0 w10_state w10_store (.I64 0)
    [.label (.block 0), .activation ⟨0, 0, [], none⟩] rfl
  exact ⟨h.2 (by decide), by decide⟩

/-- C6: `memory.grow` never traps — executed through `execute_inst` from a
state with a current frame, it pushes the previous page count on success
and `-1` on failure, and signals `Next` either way. -/
theorem C6_memory_grow (icpt : Interceptor) (cfg : Config) (m : Nat)
    (st : ExecState) (store : Store) (n : Int) (rest : List StackValue)
    (fr : CallFrame) (hs : st.stack = .value (.I32 n) :: rest)
    (hf : current_frame rest = .ok fr) :
    (∀ mem', (store.memory_at fr.module_index 0).grow (usize_of_i32 n) = .ok mem' →
      execute_inst icpt cfg .memory_grow m st store =
        .ok .next
          ⟨st.pc.inc_inst_index,
            .value (.I32 (i32_of_usize (store.memory_at fr.module_index 0).page_count)) :: rest⟩
          (store.set_memory fr.module_index 0 mem')) ∧
    ((store.memory_at fr.module_index 0).grow (usize_of_i32 n) = .error () →
      execute_inst icpt cfg .memory_grow m st store =
        .ok .next ⟨st.pc.inc_inst_index, .value (.I32 (-1)) :: rest⟩ store) ∧
    (execute_inst icpt cfg .memory_grow m st store).trap? = none := by
  have hany := any_isActivation_of_current_frame hf
  have hover : ∀ x : StackValue, is_over_top_level (x :: rest) = false := by
    intro x
    simp [is_over_top_level, List.any_cons, hany]
  have hmem : executor_memory { st with pc := st.pc.inc_inst_index, stack := rest }
      store = .ok (fr.module_index, store.memory_at fr.module_index 0) := by
    simp [executor_memory, hf]
  refine ⟨?_, ?_, ?_⟩
  · intro mem' hg
    simp [execute_inst, execute_inst_core, hs, pop_as_i32, hmem, hg, push_value,
      Outcome.state, Outcome.store, hover]
  · intro hg
    simp [execute_inst, execute_inst_core, hs, pop_as_i32, hmem, hg, push_value,
      Outcome.state, Outcome.store, hover]
  · rcases hg : (store.memory_at fr.module_index 0).grow (usize_of_i32 n) with u | mem'
    · cases u
      simp [execute_inst, execute_inst_core, hs, pop_as_i32, hmem, hg, push_value,
        Outcome.state, Outcome.store, hover, Outcome.trap?]
    · simp [execute_inst, execute_inst_core, hs, pop_as_i32, hmem, hg, push_value,
        Outcome.state, Outcome.store, hover, Outcome.trap?]

def w6_frame : CallFrame := ⟨0, 0, [], none⟩

def w6_store_ok : Store := ⟨[], [], [[⟨[], none⟩]], [], [], [], []⟩

def w6_store_fail : Store := ⟨[], [], [[⟨[], some 0⟩]], [], [], [], []⟩

def w6_state : ExecState := ⟨⟨0, 0, 0⟩, [.value (.I32 1), .activation w6_frame]⟩

theorem C6_witness :
    execute_inst nop_interceptor ⟨false⟩ .memory_grow 0 w6_state w6_store_ok =
      .ok .next ⟨⟨0, 0, 1⟩, [.value (.I32 0), .activation w6_frame]⟩
        (w6_store_ok.set_memory 0 0 ⟨List.replicate 65536 0, none⟩) ∧
    execute_inst nop_interceptor ⟨false⟩ .memory_grow 0 w6_state w6_store_fail =
      .ok .next ⟨⟨0, 0, 1⟩, [.value (.I32 (-1)), .activation w6_frame]⟩
        w6_store_fail ∧
    (execute_inst nop_interceptor ⟨false⟩ .memory_grow 0 w6_state w6_store_fail).trap? =
      none := by
  have h1 := C6_memory_grow nop_interceptor ⟨false⟩ 0 w6_state w6_store_ok 1
    [.activation w6_frame] w6_frame rfl rfl
  have h2 := C6_memory_grow nop_interceptor ⟨false⟩ 0 w6_state w6_store_fail 1
    [.activation w6_frame] w6_frame rfl rfl
  exact ⟨h1.1 ⟨List.replicate 65536 0, none⟩ rfl, h2.2.1 rfl, h2.2.2⟩

/-- C1 (amended): when the interceptor pre-hook returns `Breakpoint`, the
instruction is nevertheless executed — `execute_step` runs
`execute_inst` unconditionally after the hook — and, when the executed
instruction itself yields `Next`, the step returns `Breakpoint` together
with the post-execution state (stack, store and program counter as the
instruction left them). -/
theorem C1_breakpoint_executes (icpt : Interceptor) (cfg : Config)
    (st st' : ExecState) (store store' : Store) (f : DefinedFunc)
    (inst : Instruction)
    (hf : (store.func_global st.pc.exec_addr).bind FunctionInstance.defined? = some f)
    (hi : f.instructions[st.pc.inst_index]? = some inst)
    (hh : icpt.execute_inst_hook inst = .ok .breakpoint)
    (he : execute_inst icpt cfg inst f.module_index st store = .ok .next st' store') :
    execute_step icpt cfg st store = .ok .breakpoint st' store' := by
  simp [execute_step, hf, hi, hh, he, combine_signal]

/-- The interceptor of the claimed scenario: the pre-hook reports a
breakpoint at every instruction. -/
def bp_interceptor : Interceptor :=
  ⟨fun _ => .ok .breakpoint, fun _ => .ok .next, fun _ _ => .ok .next⟩

def c1_func : DefinedFunc := ⟨0, ⟨[], [.i32]⟩, [], [.i32_const 5, .end_], "main"⟩

def c1_store : Store := ⟨[.defined c1_func], [[0]], [[]], [[]], [[]], [[]], [⟨[]⟩]⟩

def c1_frame : CallFrame := ⟨0, 0, [], none⟩

def c1_state : ExecState := ⟨⟨0, 0, 0⟩, [.label (.ret 1), .activation c1_frame]⟩

/-- C1 is false as stated: with the pre-hook returning `Breakpoint` on an
`i32.const` instruction, `execute_step` does return `Breakpoint`, but the
instruction has been executed — the stack has grown and the program
counter has advanced, not `left unchanged` as claimed. -/
theorem C1_counterexample :
    (execute_step bp_interceptor ⟨false⟩ c1_state c1_store).signal? =
      some .breakpoint ∧
    (execute_step bp_interceptor ⟨false⟩ c1_state c1_store).state.stack ≠
      c1_state.stack ∧
    (execute_step bp_interceptor ⟨false⟩ c1_state c1_store).state.pc ≠
      c1_state.pc := by
  refine ⟨rfl, by decide, by decide⟩

theorem C1_witness :
    execute_step bp_interceptor ⟨false⟩ c1_state c1_store =
      .ok .breakpoint
        ⟨⟨0, 0, 1⟩, [.value (.I32 5), .label (.ret 1), .activation c1_frame]⟩
        c1_store :=
  C1_breakpoint_executes bp_interceptor ⟨false⟩ c1_state
    ⟨⟨0, 0, 1⟩, [.value (.I32 5), .label (.ret 1), .activation c1_frame]⟩
    c1_store c1_store c1_func (.i32_const 5) rfl rfl rfl rfl

/-- C2 (amended): the invocation protocol pops one value per parameter,
right-to-left, and traps `DirectCallTypeMismatch` exactly when some pop
fails (stack underflow / non-value on top).  The types of successfully
popped values are never compared with the callee signature: whatever
their types, a defined callee is entered with them as its locals. -/
theorem C2_invoke_pop_mismatch (icpt : Interceptor) (addr : Nat × Nat)
    (st : ExecState) (store : Store) (f : DefinedFunc) (exec_addr : Nat)
    (hf : store.func addr = some (.defined f, exec_addr)) :
    ((pop_invoke_args f.ty.params.length st.stack).2.1 = true →
      invoke icpt addr st store =
        .trap
          (.directCallTypeMismatch f.name f.ty.params
            ((pop_invoke_args f.ty.params.length st.stack).1.map Value.value_type))
          { st with stack := (pop_invoke_args f.ty.params.length st.stack).2.2 }
          store) ∧
    (∀ args s1 sig, pop_invoke_args f.ty.params.length st.stack = (args, false, s1) →
      icpt.invoke_func_hook f.name = .ok sig →
      invoke icpt addr st store =
        .ok sig
          ⟨⟨f.module_index, exec_addr, 0⟩,
            push_label (.ret f.ty.returns.length)
              (set_frame
                ⟨f.module_index, exec_addr,
                  args.reverse ++ f.locals.map ValType.zero_value, some st.pc⟩
                s1)⟩
          store) := by
  constructor
  · intro hm
    simp [invoke, hf, FunctionInstance.ty, FunctionInstance.name, hm]
  · intro args s1 sig hp hh
    simp [invoke, hf, hp, hh, FunctionInstance.ty, FunctionInstance.name]

def c2_func : DefinedFunc := ⟨0, ⟨[.i32], []⟩, [], [.end_], "callee"⟩

def c2_store : Store := ⟨[.defined c2_func], [[0]], [[]], [[]], [[]], [[]], [⟨[]⟩]⟩

def c2_state : ExecState :=
  ⟨⟨0, 0, 3⟩, [.value (.I64 0), .label (.ret 0), .activation ⟨0, 0, [], none⟩]⟩

/-- C2 is false as stated: invoking a callee of signature `(i32) -> ()` on a
stack whose single operand is `I64(0)` — enough values, but of the wrong
type — does not trap; the callee is entered (the program counter moves to
its entry). -/
theorem C2_counterexample :
    (invoke nop_interceptor (0, 0) c2_state c2_store).trap? = none ∧
    (invoke nop_interceptor (0, 0) c2_state c2_store).state.pc = ⟨0, 0, 0⟩ ∧
    (Value.I64 0).value_type ≠ ValType.i32 := by
  refine ⟨rfl, rfl, by decide⟩

theorem C2_witness :
    invoke nop_interceptor (0, 0) c2_state c2_store =
      .ok .next
        ⟨⟨0, 0, 0⟩,
          push_label (.ret 0)
            (set_frame ⟨0, 0, [.I64 0], some c2_state.pc⟩
              [.label (.ret 0), .activation ⟨0, 0, [], none⟩])⟩
        c2_store :=
  (C2_invoke_pop_mismatch nop_interceptor (0, 0) c2_state c2_store c2_func 0
    rfl).2 [.I64 0] [.label (.ret 0), .activation ⟨0, 0, [], none⟩] .next rfl rfl

/-- C4: `call_indirect` — with the frame, declared type and i32 index in
hand: an out-of-range index traps the table error (rendered `undefined
element`); a null entry traps `Trap::UndefinedFunc` (rendered
`uninitialized element`); a resolved callee whose signature differs from
the declared type traps `indirect call type mismatch`; otherwise the
callee is invoked. -/
theorem C4_call_indirect (icpt : Interceptor) (cfg : Config) (m : Nat)
    (st : ExecState) (store : Store) (index table_index : Nat)
    (fr : CallFrame) (ty : FuncType) (i : Int) (rest : List StackValue)
    (hfr : current_frame st.stack = .ok fr)
    (hty : store.get_type fr.module_index index = some ty)
    (hs : st.stack = .value (.I32 i) :: rest) :
    ((store.table_at fr.module_index table_index).buffer.length ≤ usize_of_i32 i →
      execute_inst_core icpt cfg (.call_indirect index table_index) m st store =
        .trap .tableError { st with stack := rest } store) ∧
    (∀ rt,
      (store.table_at fr.module_index table_index).buffer[usize_of_i32 i]? =
        some (.nullRef rt) →
      execute_inst_core icpt cfg (.call_indirect index table_index) m st store =
        .trap (.undefinedFunc (usize_of_i32 i)) { st with stack := rest } store) ∧
    (∀ fa func ea,
      (store.table_at fr.module_index table_index).buffer[usize_of_i32 i]? =
        some (.funcRef fa) →
      store.func fa = some (func, ea) → func.ty ≠ ty →
      execute_inst_core icpt cfg (.call_indirect index table_index) m st store =
        .trap (.indirectCallTypeMismatch func.name ty func.ty)
          { st with stack := rest } store) ∧
    (∀ fa func ea,
      (store.table_at fr.module_index table_index).buffer[usize_of_i32 i]? =
        some (.funcRef fa) →
      store.func fa = some (func, ea) → func.ty = ty →
      execute_inst_core icpt cfg (.call_indirect index table_index) m st store =
        invoke icpt fa { st with stack := rest } store) := by
  rw [hs] at hfr
  simp only [current_frame] at hfr
  refine ⟨?_, ?_, ?_, ?_⟩
  · intro hoob
    have hget : (store.table_at fr.module_index table_index).buffer[usize_of_i32 i]? =
        none := by
      exact List.getElem?_eq_none hoob
    simp [execute_inst_core, hs, current_frame, hfr, hty, pop_as_i32,
      TableInstance.get_at, hget]
  · intro rt hget
    simp [execute_inst_core, hs, current_frame, hfr, hty, pop_as_i32,
      TableInstance.get_at, hget]
  · intro fa func ea hget hfunc hne
    simp [execute_inst_core, hs, current_frame, hfr, hty, pop_as_i32,
      TableInstance.get_at, hget, hfunc, hne]
  · intro fa func ea hget hfunc heq
    simp [execute_inst_core, hs, current_frame, hfr, hty, pop_as_i32,
      TableInstance.get_at, hget, hfunc, heq]

def c4_callee : DefinedFunc := ⟨0, ⟨[], []⟩, [], [.end_], "g"⟩

def c4_store : Store :=
  ⟨[.defined c4_callee], [[0]], [[]],
   [[⟨[.nullRef .funcRef, .funcRef (0, 0)], none⟩]],
   [[]], [[]], [⟨[⟨[], []⟩, ⟨[.i32], []⟩]⟩]⟩

def c4_frame : CallFrame := ⟨0, 0, [], none⟩

def c4_state (i : Int) : ExecState :=
  ⟨⟨0, 0, 1⟩, [.value (.I32 i), .activation c4_frame]⟩

theorem C4_witness :
    execute_inst_core nop_interceptor ⟨false⟩ (.call_indirect 0 0) 0
        (c4_state 5) c4_store =
      .trap .tableError { c4_state 5 with stack := [.activation c4_frame] }
        c4_store ∧
    execute_inst_core nop_interceptor ⟨false⟩ (.call_indirect 0 0) 0
        (c4_state 0) c4_store =
      .trap (.undefinedFunc 0) { c4_state 0 with stack := [.activation c4_frame] }
        c4_store ∧
    execute_inst_core nop_interceptor ⟨false⟩ (.call_indirect 1 0) 0
        (c4_state 1) c4_store =
      .trap (.indirectCallTypeMismatch "g" ⟨[.i32], []⟩ ⟨[], []⟩)
        { c4_state 1 with stack := [.activation c4_frame] } c4_store ∧
    execute_inst_core nop_interceptor ⟨false⟩ (.call_indirect 0 0) 0
        (c4_state 1) c4_store =
      invoke nop_interceptor (0, 0)
        { c4_state 1 with stack := [.activation c4_frame] } c4_store := by
  have h5 := C4_call_indirect nop_interceptor ⟨false⟩ 0 (c4_state 5) c4_store
    0 0 c4_frame ⟨[], []⟩ 5 [.activation c4_frame] rfl rfl rfl
  have h0 := C4_call_indirect nop_interceptor ⟨false⟩ 0 (c4_state 0) c4_store
    0 0 c4_frame ⟨[], []⟩ 0 [.activation c4_frame] rfl rfl rfl
  have h1 := C4_call_indirect nop_interceptor ⟨false⟩ 0 (c4_state 1) c4_store
    1 0 c4_frame ⟨[.i32], []⟩ 1 [.activation c4_frame] rfl rfl rfl
  have h1' := C4_call_indirect nop_interceptor ⟨false⟩ 0 (c4_state 1) c4_store
    0 0 c4_frame ⟨[], []⟩ 1 [.activation c4_frame] rfl rfl rfl
  exact ⟨h5.1 (by decide), h0.2.1 .funcRef rfl,
    h1.2.2.1 (0, 0) (.defined c4_callee) 0 rfl rfl (by decide),
    h1'.2.2.2 (0, 0) (.defined c4_callee) 0 rfl rfl rfl⟩

/-- On a trap, the `MemoryCopy` arm leaves the store untouched: both regions
are validated (and the source bytes read) before the single write. -/
theorem memory_copy_trap_pres (icpt : Interceptor) (cfg : Config)
    (src dst m : Nat) (st st' : ExecState) (store store' : Store) (e : Trap)
    (h : execute_inst_core icpt cfg (.memory_copy src dst) m st store =
      .trap e st' store') :
    store' = store := by
  simp only [execute_inst_core] at h
  repeat any_goals split at h
  all_goals first
  | (cases h; rfl)
  | cases h

/-- On a trap, the `MemoryFill` arm leaves the store untouched. -/
theorem memory_fill_trap_pres (icpt : Interceptor) (cfg : Config)
    (mem m : Nat) (st st' : ExecState) (store store' : Store) (e : Trap)
    (h : execute_inst_core icpt cfg (.memory_fill mem) m st store =
      .trap e st' store') :
    store' = store := by
  simp only [execute_inst_core] at h
  repeat any_goals split at h
  all_goals first
  | (cases h; rfl)
  | cases h

/-- On a trap, the `MemoryInit` arm leaves the store untouched. -/
theorem memory_init_trap_pres (icpt : Interceptor) (cfg : Config)
    (segment mem m : Nat) (st st' : ExecState) (store store' : Store) (e : Trap)
    (h : execute_inst_core icpt cfg (.memory_init segment mem) m st store =
      .trap e st' store') :
    store' = store := by
  simp only [execute_inst_core] at h
  repeat any_goals split at h
  all_goals first
  | (cases h; rfl)
  | cases h

/-- On a trap, the `TableFill` arm leaves the store untouched: the region is
validated before the write loop, and a validated write loop cannot fail. -/
theorem table_fill_trap_pres (icpt : Interceptor) (cfg : Config)
    (tbl m : Nat) (st st' : ExecState) (store store' : Store) (e : Trap)
    (h : execute_inst_core icpt cfg (.table_fill tbl) m st store =
      .trap e st' store') :
    store' = store := by
  simp only [execute_inst_core] at h
  split at h
  next => cases h; rfl
  next s1 n_raw heq1 =>
    split at h
    next => cases h; rfl
    next s2 rv heq2 =>
      split at h
      next => cases h; rfl
      next s3 idx_raw heq3 =>
        split at h
        next e4 heq4 => cases h; rfl
        next u4 heq4 =>
          split at h
          next e5 heq5 =>
            exfalso
            have hb := table_validate_region_ok heq4
            have hok := table_fill_loop_ok _ _ _ rv hb
            rw [hok] at heq5
            exact Except.noConfusion heq5
          next u5 heq5 => cases h

/-- On a trap, the `TableCopy` arm leaves the store untouched: the source is
read and both regions validated before the write loop, which cannot fail
after validation. -/
theorem table_copy_trap_pres (icpt : Interceptor) (cfg : Config)
    (dst_tbl src_tbl m : Nat) (st st' : ExecState) (store store' : Store)
    (e : Trap)
    (h : execute_inst_core icpt cfg (.table_copy dst_tbl src_tbl) m st store =
      .trap e st' store') :
    store' = store := by
  simp only [execute_inst_core] at h
  split at h
  next => cases h; rfl
  next s1 n_raw heq1 =>
    split at h
    next => cases h; rfl
    next s2 src_raw heq2 =>
      split at h
      next => cases h; rfl
      next s3 dst_raw heq3 =>
        split at h
        next e4 heq4 => cases h; rfl
        next values heq4 =>
          split at h
          next e5 heq5 => cases h; rfl
          next u5 heq5 =>
            split at h
            next e6 heq6 => cases h; rfl
            next u6 heq6 =>
              split at h
              next e7 heq7 =>
                exfalso
                have hb := table_validate_region_ok heq6
                have hok := table_write_loop_ok
                  ((values.take (usize_of_i32 n_raw)))
                  (store.table_at m dst_tbl) (usize_of_i32 dst_raw)
                  (by
                    have hlen : (values.take (usize_of_i32 n_raw)).length ≤
                        usize_of_i32 n_raw := by
                      simp [List.length_take]
                    omega)
                rw [hok] at heq7
                exact Except.noConfusion heq7
              next u7 heq7 => cases h

/-- On a trap, the `TableInit` arm leaves the store untouched: both regions
are validated before the read / write loop, which cannot fail after
validation. -/
theorem table_init_trap_pres (icpt : Interceptor) (cfg : Config)
    (segment tbl m : Nat) (st st' : ExecState) (store store' : Store)
    (e : Trap)
    (h : execute_inst_core icpt cfg (.table_init segment tbl) m st store =
      .trap e st' store') :
    store' = store := by
  simp only [execute_inst_core] at h
  split at h
  next => cases h; rfl
  next s1 n_raw heq1 =>
    split at h
    next => cases h; rfl
    next s2 src_raw heq2 =>
      split at h
      next => cases h; rfl
      next s3 dst_raw heq3 =>
        split at h
        next e4 heq4 => cases h; rfl
        next u4 heq4 =>
          split at h
          next e5 heq5 => cases h; rfl
          next u5 heq5 =>
            split at h
            next e6 heq6 =>
              exfalso
              have hbt := table_validate_region_ok heq4
              have hbe := elem_validate_region_ok heq5
              have hok := table_init_loop_ok _ _ _ _ _ hbt hbe
              rw [hok] at heq6
              exact Except.noConfusion heq6
            next u6 heq6 => cases h

/-- C3: every bulk region operation that traps modifies no memory byte and
no table reference — each operation validates its regions before any
write, so the store the trap leaves behind is the starting store. -/
theorem C3_bulk_atomicity (icpt : Interceptor) (cfg : Config) (m : Nat) :
    (∀ src dst st st' store store' e,
      execute_inst_core icpt cfg (.memory_copy src dst) m st store =
        .trap e st' store' →
      store'.memories = store.memories ∧ store'.tables = store.tables) ∧
    (∀ mem st st' store store' e,
      execute_inst_core icpt cfg (.memory_fill mem) m st store =
        .trap e st' store' →
      store'.memories = store.memories ∧ store'.tables = store.tables) ∧
    (∀ segment mem st st' store store' e,
      execute_inst_core icpt cfg (.memory_init segment mem) m st store =
        .trap e st' store' →
      store'.memories = store.memories ∧ store'.tables = store.tables) ∧
    (∀ tbl st st' store store' e,
      execute_inst_core icpt cfg (.table_fill tbl) m st store =
        .trap e st' store' →
      store'.memories = store.memories ∧ store'.tables = store.tables) ∧
    (∀ dst_tbl src_tbl st st' store store' e,
      execute_inst_core icpt cfg (.table_copy dst_tbl src_tbl) m st store =
        .trap e st' store' →
      store'.memories = store.memories ∧ store'.tables = store.tables) ∧
    (∀ segment tbl st st' store store' e,
      execute_inst_core icpt cfg (.table_init segment tbl) m st store =
        .trap e st' store' →
      store'.memories = store.memories ∧ store'.tables = store.tables) := by
  refine ⟨?_, ?_, ?_, ?_, ?_, ?_⟩
  · intro src dst st st' store store' e h
    rw [memory_copy_trap_pres icpt cfg src dst m st st' store store' e h]
    exact ⟨rfl, rfl⟩
  · intro mem st st' store store' e h
    rw [memory_fill_trap_pres icpt cfg mem m st st' store store' e h]
    exact ⟨rfl, rfl⟩
  · intro segment mem st st' store store' e h
    rw [memory_init_trap_pres icpt cfg segment mem m st st' store store' e h]
    exact ⟨rfl, rfl⟩
  · intro tbl st st' store store' e h
    rw [table_fill_trap_pres icpt cfg tbl m st st' store store' e h]
    exact ⟨rfl, rfl⟩
  · intro dst_tbl src_tbl st st' store store' e h
    rw [table_copy_trap_pres icpt cfg dst_tbl src_tbl m st st' store store' e h]
    exact ⟨rfl, rfl⟩
  · intro segment tbl st st' store store' e h
    rw [table_init_trap_pres icpt cfg segment tbl m st st' store store' e h]
    exact ⟨rfl, rfl⟩

def c3_state : ExecState :=
  ⟨⟨0, 0, 0⟩, [.value (.I32 1), .value (.I32 0), .value (.I32 0)]⟩

def c3_state_fill : ExecState :=
  ⟨⟨0, 0, 0⟩, [.value (.I32 1), .value (.Ref (.nullRef .funcRef)), .value (.I32 0)]⟩

theorem C3_witness :
    execute_inst_core nop_interceptor ⟨false⟩ (.memory_copy 0 0) 0 c3_state
        empty_store =
      .trap .memoryError { c3_state with stack := [] } empty_store ∧
    (execute_inst_core nop_interceptor ⟨false⟩ (.memory_copy 0 0) 0 c3_state
        empty_store).store.memories = empty_store.memories ∧
    execute_inst_core nop_interceptor ⟨false⟩ (.table_fill 0) 0 c3_state_fill
        empty_store =
      .trap .tableError { c3_state_fill with stack := [] } empty_store ∧
    (execute_inst_core nop_interceptor ⟨false⟩ (.table_fill 0) 0 c3_state_fill
        empty_store).store.tables = empty_store.tables := by
  have h1 := (C3_bulk_atomicity nop_interceptor ⟨false⟩ 0).1 0 0 c3_state
    { c3_state with stack := [] } empty_store empty_store .memoryError rfl
  have h2 := (C3_bulk_atomicity nop_interceptor ⟨false⟩ 0).2.2.2.1 0 c3_state_fill
    { c3_state_fill with stack := [] } empty_store empty_store .tableError rfl
  exact ⟨rfl, h1.1, rfl, h2.2⟩

/-- A file system holding the user's init file at `$HOME/.wasminspect_init`
with `HOME = /root`, and nothing else. -/
def c9_fs : String → Option (List String) :=
  fun p => if p = "/root/.wasminspect_init" then some ["run"] else none

/-- C9: `run_loop` hands the literal string `~/.wasminspect_init` to
`File::open`, which performs no tilde expansion — so with the init file
present at `$HOME/.wasminspect_init` the REPL still executes no init
commands (first conjunct), the path opened is not
`$HOME/.wasminspect_init` (second conjunct), while the claim's
absence-is-not-an-error half does hold (third conjunct). -/
theorem C9_init_file :
    run_loop_init_lines c9_fs none = .ok [] ∧
    init_file_candidate none ≠ "/root/.wasminspect_init" ∧
    run_loop_init_lines (fun _ => none) none = .ok [] := by
  refine ⟨rfl, by decide, rfl⟩

end Wasminspect
